import Mathlib

/-!
Shallow embedding of the offline rule-based NL→SQL translator
(`src/local_nl_sql.py`, class `LocalNLtoSQL`) of the DataTalk repository.

The translator lowercases and strips the question, tries an ordered list of
regular-expression rules (Python `re.search`, leftmost match, backtracking
with greedy quantifiers), runs the first matching rule's handler inside a
`try/except` that turns handler exceptions into "rule did not match", and
falls back to a keyword-based table scan when no rule applies.

Modelling notes:
* Python strings are modelled as Lean `String`/`List Char`.  The character
  classes `\s`, `\d`, `\w` and `str.lower`/`str.strip` are modelled by their
  ASCII readings (Python's are Unicode-wide; every literal in the rule table
  and every string the claims mention is ASCII, and the wider classes also
  exclude quotes, semicolons and whitespace, which is all the safety proofs
  use).
* Every quantifier in the source's 15 regexes applies to a single character
  class (`\s+`, `\s*`, `\d+`, `\w+`), an optional single character (`s?`) or
  an optional group; the `Atom` type below covers exactly these shapes, and
  `matchAtoms` implements Python's leftmost/greedy backtracking semantics
  for them.  The `fuel` argument only bounds the recursion depth: each step
  removes one atom (an optional group is replaced by its body, which is
  smaller), so the depth never exceeds `sizeOf` of the atom list, which is
  what `searchL` passes; the fuel is never exhausted.
* Handler exceptions (the source's `try/except Exception: continue`) are
  modelled by handlers returning `none`; note that `_handle_count` returns
  the value `(None, None)` — not an exception — when the entity resolves to
  no table, which `parse_question` then returns as-is.
-/

namespace DataTalk

/-- ASCII reading of Python's `\s` (also used for `str.strip`). -/
def isSpaceChar (c : Char) : Bool :=
  c = ' ' || c = '\t' || c = '\n' || c = '\x0d' || c = '\x0b' || c = '\x0c'

/-- ASCII reading of Python's `\d`: the characters `'0'`–`'9'`. -/
def isDigitChar (c : Char) : Bool := 48 ≤ c.toNat && c.toNat ≤ 57

/-- ASCII letters `'A'`–`'Z'`, `'a'`–`'z'`. -/
def isLetterChar (c : Char) : Bool :=
  (65 ≤ c.toNat && c.toNat ≤ 90) || (97 ≤ c.toNat && c.toNat ≤ 122)

/-- ASCII reading of Python's `\w` (letters, digits, underscore). -/
def isWordChar (c : Char) : Bool := isLetterChar c || isDigitChar c || c = '_'

/-- `str.strip()` on a character list: drop leading and trailing whitespace. -/
def stripL (l : List Char) : List Char :=
  ((l.dropWhile isSpaceChar).reverse.dropWhile isSpaceChar).reverse

/-- `str.lower()` (ASCII). -/
def pyLower (s : String) : String := ⟨s.data.map Char.toLower⟩

/-- `str.strip()`. -/
def pyStrip (s : String) : String := ⟨stripL s.data⟩

/-- Python's substring test `needle in hay` on character lists. -/
def substrL (needle : List Char) : List Char → Bool
  | [] => needle.isPrefixOf []
  | c :: t => needle.isPrefixOf (c :: t) || substrL needle t

/-- Python's substring test `needle in hay`. -/
def substrB (needle hay : String) : Bool := substrL needle.data hay.data

/-- Decimal digit character for `n < 10`. -/
def digitChar (n : Nat) : Char := Char.ofNat (48 + n)

/-- Auxiliary for decimal rendering; the first argument is structural fuel
(`n` itself is enough, since `n / 10 < n` for `n > 0`). -/
def natDecAux : Nat → Nat → List Char
  | 0, _ => []
  | fuel + 1, n => if n = 0 then [] else natDecAux fuel (n / 10) ++ [digitChar (n % 10)]

/-- Decimal rendering of a natural number, as in Python's f-string `{n}`. -/
def natRepr (n : Nat) : String := if n = 0 then "0" else ⟨natDecAux n n⟩

/-! ### The regex fragment used by the rule table -/

/-- The three character classes occurring in the source's regexes. -/
inductive CClass | space | digit | word
deriving DecidableEq

def cmatch : CClass → Char → Bool
  | .space, c => isSpaceChar c
  | .digit, c => isDigitChar c
  | .word, c => isWordChar c

/-- One atom of a rule regex: a literal, `C+` / `C*` for a character class
`C` (capturing or not), an optional single character (`x?`), an alternation
of literals (`(?:a|b|…)`, capturing or not), or an optional group
(`(?:…)?`). -/
inductive Atom
  | lit (w : String)
  | cplus (cl : CClass) (cap : Bool)
  | cstar (cl : CClass)
  | optChar (c : Char)
  | altLit (ws : List String) (cap : Bool)
  | optGrp (gs : List Atom)

mutual

/-- Size of an atom (an optional group counts its body). -/
def atomSize : Atom → Nat
  | .lit _ => 1
  | .cplus _ _ => 1
  | .cstar _ => 1
  | .optChar _ => 1
  | .altLit _ _ => 1
  | .optGrp gs => 1 + atomsSize gs

/-- Total size of an atom list: an upper bound on the matcher's recursion
depth, used as its fuel. -/
def atomsSize : List Atom → Nat
  | [] => 0
  | a :: rest => atomSize a + atomsSize rest

end

/-- Backtracking matcher for a list of atoms against a prefix of `s`,
accumulating captured groups in order.  Greedy semantics as in Python:
`C+`/`C*` try the longest run first, an optional character or group is
tried present-first, alternatives are tried left to right; on failure of
the continuation the next possibility is tried. -/
def matchAtoms : Nat → List Atom → List Char → List String → Option (List String)
  | _, [], _, caps => some caps
  | 0, _ :: _, _, _ => none
  | fuel + 1, Atom.lit w :: rest, s, caps =>
      if w.data.isPrefixOf s then matchAtoms fuel rest (s.drop w.data.length) caps else none
  | fuel + 1, Atom.cplus cl cap :: rest, s, caps =>
      let n := (s.takeWhile (cmatch cl)).length
      ((List.range n).map (fun j => n - j)).findSome? fun k =>
        matchAtoms fuel rest (s.drop k) (caps ++ (if cap then [⟨s.take k⟩] else []))
  | fuel + 1, Atom.cstar cl :: rest, s, caps =>
      let n := (s.takeWhile (cmatch cl)).length
      ((List.range (n + 1)).map (fun j => n - j)).findSome? fun k =>
        matchAtoms fuel rest (s.drop k) caps
  | fuel + 1, Atom.optChar c :: rest, s, caps =>
      match s with
      | c₂ :: t =>
          if c₂ = c then matchAtoms fuel rest t caps <|> matchAtoms fuel rest (c₂ :: t) caps
          else matchAtoms fuel rest (c₂ :: t) caps
      | [] => matchAtoms fuel rest [] caps
  | fuel + 1, Atom.altLit ws cap :: rest, s, caps =>
      ws.findSome? fun w =>
        if w.data.isPrefixOf s then
          matchAtoms fuel rest (s.drop w.data.length) (caps ++ (if cap then [w] else []))
        else none
  | fuel + 1, Atom.optGrp gs :: rest, s, caps =>
      matchAtoms fuel (gs ++ rest) s caps <|> matchAtoms fuel rest s caps

/-- Python's `re.search`: try a match at every start position, leftmost
first, and return the captured groups of the first success. -/
def searchL (atoms : List Atom) : List Char → Option (List String)
  | [] => matchAtoms (atomsSize atoms) atoms [] []
  | c :: t =>
      match matchAtoms (atomsSize atoms) atoms (c :: t) [] with
      | some caps => some caps
      | none => searchL atoms t

/-! ### The schema catalog and language lexicon (`LocalNLtoSQL.__init__`) -/

/-- `self.tables` keys, in insertion (= iteration) order. -/
def tableNames : List String :=
  ["workspaces", "users", "agents", "integrations", "agent_tools", "agent_runs",
   "test_runs", "run_logs", "errors", "integration_sync_logs", "billing_usage",
   "audit_events"]

/-- `self.languages`: language name → 2-letter code. -/
def languages : List (String × String) :=
  [("english", "en"), ("hindi", "hi"), ("gujarati", "gu"), ("tamil", "ta"),
   ("telugu", "te"), ("marathi", "mr"), ("bengali", "bn"), ("kannada", "kn"),
   ("malayalam", "ml"), ("punjabi", "pa")]

/-! ### The rule regexes (`LocalNLtoSQL._build_patterns`) -/

/-- `\s+` -/
def wsp : Atom := Atom.cplus CClass.space false
/-- `\s*` -/
def wss : Atom := Atom.cstar CClass.space
/-- `s?` -/
def optS : Atom := Atom.optChar 's'
/-- `(?:the)?` -/
def optThe : Atom := Atom.optGrp [Atom.lit "the"]
/-- `(?:for|in|from)?` -/
def optForInFrom : Atom := Atom.optGrp [Atom.altLit ["for", "in", "from"] false]
/-- `(?:all\s+)?` -/
def optAll : Atom := Atom.optGrp [Atom.lit "all", wsp]
/-- `(?:by\s+)?` -/
def optBy : Atom := Atom.optGrp [Atom.lit "by", wsp]
/-- `(\d+)` -/
def capNum : Atom := Atom.cplus CClass.digit true
/-- `(hour|day|week|month)` -/
def capUnit : Atom := Atom.altLit ["hour", "day", "week", "month"] true

/-- `top\s+(\d+)\s+errors?\s+(?:for|in|from)?\s*(?:the)?\s*last\s+(\d+)\s+(hour|day|week|month)s?` -/
def pat_top_errors : List Atom :=
  [Atom.lit "top", wsp, capNum, wsp, Atom.lit "error", optS, wsp, optForInFrom, wss,
   optThe, wss, Atom.lit "last", wsp, capNum, wsp, capUnit, optS]

/-- `(?:show|list|get|find)\s+(?:all\s+)?errors?\s+(?:for|in|from)?\s*(?:the)?\s*last\s+(\d+)\s+(hour|day|week|month)s?` -/
def pat_errors_timeframe : List Atom :=
  [Atom.altLit ["show", "list", "get", "find"] false, wsp, optAll, Atom.lit "error", optS,
   wsp, optForInFrom, wss, optThe, wss, Atom.lit "last", wsp, capNum, wsp, capUnit, optS]

/-- `(?:show|list|get|find)\s+(?:all\s+)?failed\s+test\s*runs?\s+(?:for|in|from)?\s*(?:the)?\s*last\s+(\d+)\s+(hour|day|week|month)s?` -/
def pat_failed_tests : List Atom :=
  [Atom.altLit ["show", "list", "get", "find"] false, wsp, optAll, Atom.lit "failed", wsp,
   Atom.lit "test", wss, Atom.lit "run", optS, wsp, optForInFrom, wss, optThe, wss,
   Atom.lit "last", wsp, capNum, wsp, capUnit, optS]

/-- `(?:show|list|get|find)\s+(?:all\s+)?(?:successful|passed)\s+test\s*runs?` -/
def pat_successful_tests : List Atom :=
  [Atom.altLit ["show", "list", "get", "find"] false, wsp, optAll,
   Atom.altLit ["successful", "passed"] false, wsp, Atom.lit "test", wss, Atom.lit "run", optS]

/-- `(?:which|what|show|list)\s+integrations?\s+(?:are\s+)?inactive` -/
def pat_inactive_integrations : List Atom :=
  [Atom.altLit ["which", "what", "show", "list"] false, wsp, Atom.lit "integration", optS,
   wsp, Atom.optGrp [Atom.lit "are", wsp], Atom.lit "inactive"]

/-- `(?:show|list|get)\s+(?:all\s+)?integrations?\s+(?:by\s+)?status` -/
def pat_integrations_by_status : List Atom :=
  [Atom.altLit ["show", "list", "get"] false, wsp, optAll, Atom.lit "integration", optS,
   wsp, optBy, Atom.lit "status"]

/-- `(?:show|list|get|find)\s+(?:all\s+)?agents?\s+(?:using|with|in)\s+(\w+)\s+language` -/
def pat_agents_by_language : List Atom :=
  [Atom.altLit ["show", "list", "get", "find"] false, wsp, optAll, Atom.lit "agent", optS,
   wsp, Atom.altLit ["using", "with", "in"] false, wsp, Atom.cplus CClass.word true, wsp,
   Atom.lit "language"]

/-- `(?:show|list|get)\s+(?:all\s+)?agents?` -/
def pat_all_agents : List Atom :=
  [Atom.altLit ["show", "list", "get"] false, wsp, optAll, Atom.lit "agent", optS]

/-- `(?:show|list|get)\s+(?:all\s+)?workspaces?` -/
def pat_all_workspaces : List Atom :=
  [Atom.altLit ["show", "list", "get"] false, wsp, optAll, Atom.lit "workspace", optS]

/-- `workspaces?\s+(?:by\s+)?plan` -/
def pat_workspaces_by_plan : List Atom :=
  [Atom.lit "workspace", optS, wsp, optBy, Atom.lit "plan"]

/-- `(?:how many|count)\s+(\w+)` -/
def pat_count : List Atom :=
  [Atom.altLit ["how many", "count"] false, wsp, Atom.cplus CClass.word true]

/-- `errors?\s+(?:by\s+)?source` -/
def pat_errors_by_source : List Atom :=
  [Atom.lit "error", optS, wsp, optBy, Atom.lit "source"]

/-- `agent\s+runs?\s+(?:by\s+)?status` -/
def pat_agent_runs_status : List Atom :=
  [Atom.lit "agent", wsp, Atom.lit "run", optS, wsp, optBy, Atom.lit "status"]

/-- `(?:billing|usage|cost)\s+(?:by\s+)?workspace` -/
def pat_billing_by_workspace : List Atom :=
  [Atom.altLit ["billing", "usage", "cost"] false, wsp, optBy, Atom.lit "workspace"]

/-- `(?:top|highest)\s+(\d+)\s+(?:token|cost|usage)` -/
def pat_top_usage : List Atom :=
  [Atom.altLit ["top", "highest"] false, wsp, capNum, wsp,
   Atom.altLit ["token", "cost", "usage"] false]

/-! ### Time filter and the handlers

A handler takes the captured groups and the normalized question (the
source's handlers all ignore the `question` parameter) and returns
`none` to model a Python exception, which the dispatch loop catches. -/

/-- `unit_map` of `_get_time_filter`. -/
def unit_map : List (String × String) :=
  [("hour", "hours"), ("day", "days"), ("week", "days"), ("month", "days")]

/-- `multiplier` of `_get_time_filter`. -/
def multiplier : List (String × Nat) :=
  [("hour", 1), ("day", 1), ("week", 7), ("month", 30)]

/-- Python's `int(...)` on the strings reaching it here: the `\d+` captures,
i.e. non-empty digit strings (on anything else `int` raises, modelled by
`none`; Python also accepts signs, spaces and underscores, which `\d+`
cannot produce). -/
def pyInt? (s : String) : Option Nat :=
  if s.data ≠ [] ∧ s.data.all isDigitChar then
    some (s.data.foldl (fun n c => n * 10 + (c.toNat - 48)) 0)
  else none

/-- `LocalNLtoSQL._get_time_filter`.  `none` models the `int(value)`
exception on a non-numeric string (unreachable from the `\d+` captures). -/
def _get_time_filter (value unit : String) : Option String :=
  match pyInt? value with
  | none => none
  | some v =>
      let actual_value := v * ((multiplier.lookup unit).getD 1)
      let actual_unit := (unit_map.lookup unit).getD "days"
      some ("datetime('now', '-" ++ natRepr actual_value ++ " " ++ actual_unit ++ "')")

/-- The result type of a handler: `none` is an exception; otherwise the
source returns a `(sql, explanation)` pair of optional strings. -/
abbrev HandlerResult := Option (Option String × Option String)

/-- `LocalNLtoSQL._handle_top_errors`. -/
def _handle_top_errors (caps : List String) (_question : String) : HandlerResult :=
  match caps.get? 0, caps.get? 1, caps.get? 2 with
  | some limit, some time_value, some time_unit =>
      match _get_time_filter time_value time_unit with
      | none => none
      | some time_filter =>
          some (some (pyStrip ("\n        SELECT code, message, source, COUNT(*) as error_count \n        FROM errors \n        WHERE created_at >= " ++ time_filter ++ "\n        GROUP BY code, message, source \n        ORDER BY error_count DESC \n        LIMIT " ++ limit ++ "\n        ")),
                some ("Finding top " ++ limit ++ " errors from the last " ++ time_value ++ " " ++ time_unit ++ "(s)"))
  | _, _, _ => none

/-- `LocalNLtoSQL._handle_errors_timeframe`. -/
def _handle_errors_timeframe (caps : List String) (_question : String) : HandlerResult :=
  match caps.get? 0, caps.get? 1 with
  | some time_value, some time_unit =>
      match _get_time_filter time_value time_unit with
      | none => none
      | some time_filter =>
          some (some (pyStrip ("\n        SELECT * \n        FROM errors \n        WHERE created_at >= " ++ time_filter ++ "\n        ORDER BY created_at DESC\n        ")),
                some ("Showing all errors from the last " ++ time_value ++ " " ++ time_unit ++ "(s)"))
  | _, _ => none

/-- `LocalNLtoSQL._handle_failed_tests`. -/
def _handle_failed_tests (caps : List String) (_question : String) : HandlerResult :=
  match caps.get? 0, caps.get? 1 with
  | some time_value, some time_unit =>
      match _get_time_filter time_value time_unit with
      | none => none
      | some time_filter =>
          some (some (pyStrip ("\n        SELECT tr.*, a.name as agent_name \n        FROM test_runs tr \n        JOIN agents a ON tr.agent_id = a.id \n        WHERE tr.result = 'fail' \n        AND tr.created_at >= " ++ time_filter ++ "\n        ORDER BY tr.created_at DESC\n        ")),
                some ("Finding failed test runs from the last " ++ time_value ++ " " ++ time_unit ++ "(s)"))
  | _, _ => none

/-- `LocalNLtoSQL._handle_successful_tests`. -/
def _handle_successful_tests (_caps : List String) (_question : String) : HandlerResult :=
  some (some (pyStrip "\n        SELECT tr.*, a.name as agent_name \n        FROM test_runs tr \n        JOIN agents a ON tr.agent_id = a.id \n        WHERE tr.result = 'pass' \n        ORDER BY tr.created_at DESC\n        "),
        some "Finding all successful test runs")

/-- `LocalNLtoSQL._handle_inactive_integrations`. -/
def _handle_inactive_integrations (_caps : List String) (_question : String) : HandlerResult :=
  some (some (pyStrip "\n        SELECT i.*, w.name as workspace_name \n        FROM integrations i \n        JOIN workspaces w ON i.workspace_id = w.id \n        WHERE i.status = 'inactive'\n        ORDER BY i.created_at DESC\n        "),
        some "Finding all inactive integrations")

/-- `LocalNLtoSQL._handle_integrations_by_status`. -/
def _handle_integrations_by_status (_caps : List String) (_question : String) : HandlerResult :=
  some (some (pyStrip "\n        SELECT type, status, COUNT(*) as count \n        FROM integrations \n        GROUP BY type, status \n        ORDER BY type, status\n        "),
        some "Grouping integrations by type and status")

/-- `LocalNLtoSQL._handle_agents_by_language`. -/
def _handle_agents_by_language (caps : List String) (_question : String) : HandlerResult :=
  match caps.get? 0 with
  | none => none
  | some g =>
      let language_name := pyLower g
      let language_code := (languages.lookup language_name).getD ⟨language_name.data.take 2⟩
      some (some (pyStrip ("\n        SELECT a.*, w.name as workspace_name \n        FROM agents a \n        JOIN workspaces w ON a.workspace_id = w.id \n        WHERE a.language = '" ++ language_code ++ "'\n        ORDER BY a.created_at DESC\n        ")),
            some ("Finding all agents using " ++ language_name ++ " language"))

/-- `LocalNLtoSQL._handle_all_agents`. -/
def _handle_all_agents (_caps : List String) (_question : String) : HandlerResult :=
  some (some (pyStrip "\n        SELECT a.*, w.name as workspace_name \n        FROM agents a \n        JOIN workspaces w ON a.workspace_id = w.id \n        ORDER BY a.created_at DESC\n        "),
        some "Listing all agents")

/-- `LocalNLtoSQL._handle_all_workspaces`. -/
def _handle_all_workspaces (_caps : List String) (_question : String) : HandlerResult :=
  some (some (pyStrip "\n        SELECT * \n        FROM workspaces \n        ORDER BY created_at DESC\n        "),
        some "Listing all workspaces")

/-- `LocalNLtoSQL._handle_workspaces_by_plan`. -/
def _handle_workspaces_by_plan (_caps : List String) (_question : String) : HandlerResult :=
  some (some (pyStrip "\n        SELECT plan, COUNT(*) as count \n        FROM workspaces \n        GROUP BY plan \n        ORDER BY count DESC\n        "),
        some "Grouping workspaces by plan type")

/-- The resolution predicate of `_handle_count`: the entity names the table
if the table name contains it as a substring or starts with it
(`entity in table_name or table_name.startswith(entity)`). -/
def countMatches (entity table : String) : Bool :=
  substrB entity table || entity.data.isPrefixOf table.data

/-- `LocalNLtoSQL._handle_count`.  When the captured entity resolves to no
catalog table the source returns the pair `(None, None)` (not an
exception). -/
def _handle_count (caps : List String) (_question : String) : HandlerResult :=
  match caps.get? 0 with
  | none => none
  | some g =>
      let entity := pyLower g
      match tableNames.find? (fun t => countMatches entity t) with
      | none => some (none, none)
      | some table =>
          some (some (pyStrip ("SELECT COUNT(*) as count FROM " ++ table)),
                some ("Counting total " ++ entity))

/-- `LocalNLtoSQL._handle_errors_by_source`. -/
def _handle_errors_by_source (_caps : List String) (_question : String) : HandlerResult :=
  some (some (pyStrip "\n        SELECT source, COUNT(*) as count \n        FROM errors \n        GROUP BY source \n        ORDER BY count DESC\n        "),
        some "Grouping errors by source")

/-- `LocalNLtoSQL._handle_agent_runs_status`. -/
def _handle_agent_runs_status (_caps : List String) (_question : String) : HandlerResult :=
  some (some (pyStrip "\n        SELECT a.name as agent_name, ar.status, COUNT(*) as count \n        FROM agent_runs ar \n        JOIN agents a ON ar.agent_id = a.id \n        GROUP BY a.name, ar.status \n        ORDER BY a.name, ar.status\n        "),
        some "Grouping agent runs by status")

/-- `LocalNLtoSQL._handle_billing_by_workspace`. -/
def _handle_billing_by_workspace (_caps : List String) (_question : String) : HandlerResult :=
  some (some (pyStrip "\n        SELECT w.name as workspace_name, \n               SUM(b.total_cost_usd) as total_cost, \n               SUM(b.tokens_used) as total_tokens,\n               SUM(b.calls_made) as total_calls\n        FROM billing_usage b \n        JOIN workspaces w ON b.workspace_id = w.id \n        GROUP BY w.id, w.name \n        ORDER BY total_cost DESC\n        "),
        some "Showing billing usage by workspace")

/-- `LocalNLtoSQL._handle_top_usage`. -/
def _handle_top_usage (caps : List String) (_question : String) : HandlerResult :=
  match caps.get? 0 with
  | none => none
  | some limit =>
      some (some (pyStrip ("\n        SELECT a.name as agent_name, \n               SUM(b.tokens_used) as total_tokens,\n               SUM(b.total_cost_usd) as total_cost\n        FROM billing_usage b \n        JOIN agents a ON b.agent_id = a.id \n        GROUP BY a.name \n        ORDER BY total_tokens DESC \n        LIMIT " ++ limit ++ "\n        ")),
            some ("Finding top " ++ limit ++ " agents by token usage"))

/-- `'_'` replaced by `' '`, as `table_name.replace('_', ' ')`. -/
def underscoreToSpace (t : String) : String :=
  ⟨t.data.map (fun c => if c = '_' then ' ' else c)⟩

/-- The detection predicate of `_keyword_based_query`: the table name, with
underscores replaced by spaces or as written, occurs in the question
(`table_name.replace('_', ' ') in question or table_name in question`). -/
def tableMentioned (question table : String) : Bool :=
  substrB (underscoreToSpace table) question || substrB table question

/-- The could-not-understand reason of `_keyword_based_query`. -/
def couldNotUnderstand : String :=
  "Could not understand the question. Try using query templates or be more specific."

/-- `LocalNLtoSQL._keyword_based_query`. -/
def _keyword_based_query (question : String) : Option String × Option String :=
  match tableNames.find? (fun t => tableMentioned question t) with
  | none => (none, some couldNotUnderstand)
  | some table =>
      (some ("SELECT * FROM " ++ table ++ " LIMIT 100"),
       some ("Showing data from " ++ table ++ " table"))

/-! ### Dispatch (`LocalNLtoSQL.parse_question`) -/

/-- `self.patterns`: the rule table, in declaration order. -/
def patterns : List (List Atom × (List String → String → HandlerResult)) :=
  [(pat_top_errors, _handle_top_errors),
   (pat_errors_timeframe, _handle_errors_timeframe),
   (pat_failed_tests, _handle_failed_tests),
   (pat_successful_tests, _handle_successful_tests),
   (pat_inactive_integrations, _handle_inactive_integrations),
   (pat_integrations_by_status, _handle_integrations_by_status),
   (pat_agents_by_language, _handle_agents_by_language),
   (pat_all_agents, _handle_all_agents),
   (pat_all_workspaces, _handle_all_workspaces),
   (pat_workspaces_by_plan, _handle_workspaces_by_plan),
   (pat_count, _handle_count),
   (pat_errors_by_source, _handle_errors_by_source),
   (pat_agent_runs_status, _handle_agent_runs_status),
   (pat_billing_by_workspace, _handle_billing_by_workspace),
   (pat_top_usage, _handle_top_usage)]

/-- The `for pattern_info in self.patterns` loop of `parse_question`: first
matching rule wins; a handler exception (`none`) means "continue"; when no
rule applies, fall through to `_keyword_based_query`. -/
def tryPatterns :
    List (List Atom × (List String → String → HandlerResult)) → String →
    Option String × Option String
  | [], question => _keyword_based_query question
  | (pat, h) :: rest, question =>
      match searchL pat question.data with
      | some caps =>
          match h caps question with
          | some r => r
          | none => tryPatterns rest question
      | none => tryPatterns rest question

/-- `LocalNLtoSQL.parse_question`: normalize (`lower().strip()`), try the
rules in order, then the keyword fallback. -/
def parse_question (q : String) : Option String × Option String :=
  tryPatterns patterns (pyStrip (pyLower q))

/-! ### Capture specifications

What the matcher guarantees about each captured group: a `cplus` capture is
a non-empty run of its character class, an `altLit` capture is one of the
listed alternatives.  Used by the safety proofs. -/

/-- The shape of one captured group. -/
inductive CapSpec
  | ofClass (cl : CClass)
  | oneOf (ws : List String)

/-- A captured string conforms to its specification. -/
def SpecMatch : CapSpec → String → Prop
  | .ofClass cl, w => w.data ≠ [] ∧ ∀ c ∈ w.data, cmatch cl c = true
  | .oneOf ws, w => w ∈ ws

/-- Specifications contributed by one atom (top level only; optional groups
in the rule table never capture, see `noCapsAtoms`). -/
def atomCapSpecs : Atom → List CapSpec
  | .cplus cl true => [.ofClass cl]
  | .altLit ws true => [.oneOf ws]
  | _ => []

/-- Specifications of all captures of an atom list, in order. -/
def capSpecs (atoms : List Atom) : List CapSpec := (atoms.map atomCapSpecs).flatten

mutual

/-- The atom contains no capturing construct (recursively). -/
def noCapsAtom : Atom → Bool
  | .cplus _ cap => !cap
  | .altLit _ cap => !cap
  | .optGrp gs => noCapsAtoms gs
  | _ => true

/-- No atom of the list contains a capturing construct. -/
def noCapsAtoms : List Atom → Bool
  | [] => true
  | a :: rest => noCapsAtom a && noCapsAtoms rest

end

mutual

/-- Every optional group of the atom is capture-free. -/
def atomOk : Atom → Bool
  | .optGrp gs => noCapsAtoms gs
  | _ => true

/-- Every optional group of the list is capture-free (true of all 15 rule
regexes, whose groups are only `(?:the)?`, `(?:all\s+)?` and the like). -/
def atomsOk : List Atom → Bool
  | [] => true
  | a :: rest => atomOk a && atomsOk rest

end

/-! ### The SQL safety predicate of the specification -/

/-- The write-statement keywords the specification forbids. -/
def badKeywords : List String := ["INSERT", "UPDATE", "DELETE", "DROP", "ALTER"]

/-- `kw` occurs in `s` at position `i` as a whole token: the slice matches
and both neighbours (when they exist) are not word characters. -/
def occursWholeTokenAt (kw s : List Char) (i : Nat) : Bool :=
  ((s.drop i).take kw.length == kw)
  && (i == 0 || !isWordChar (s.getD (i - 1) ' '))
  && !isWordChar (s.getD (i + kw.length) ' ')

/-- `kw` occurs somewhere in `s` as a whole token. -/
def hasWholeToken (kw s : List Char) : Bool :=
  (List.range (s.length + 1)).any (occursWholeTokenAt kw s)

/-- The specification's hard postcondition on generated SQL: after trimming
and upper-casing it starts with `SELECT`, contains no semicolon, and
contains no whole-token `INSERT`/`UPDATE`/`DELETE`/`DROP`/`ALTER`. -/
def sqlSafeL (l : List Char) : Bool :=
  let u := (stripL l).map Char.toUpper
  "SELECT".data.isPrefixOf u
    && u.all (fun c => !(c == ';'))
    && badKeywords.all (fun kw => !hasWholeToken kw.data u)

/-- `sqlSafeL` on a string. -/
def sqlSafe (s : String) : Bool := sqlSafeL s.data

/-- The single-quote character (ASCII 39). -/
def squoteChar : Char := Char.ofNat 39

/-- The shape of every generated time filter: a relative expression
`datetime('now', '-N unit')` anchored at query-execution time. -/
def tfString (n : Nat) (unit : String) : String :=
  "datetime('now', '-" ++ natRepr n ++ " " ++ unit ++ "')"

/-- Expected (stripped) SQL of the agents-by-language generator for a given
resolved language code, as the specification describes it. -/
def agentsLangSql (code : String) : String :=
  "SELECT a.*, w.name as workspace_name \n        FROM agents a \n        JOIN workspaces w ON a.workspace_id = w.id \n        WHERE a.language = '" ++ code ++ "'\n        ORDER BY a.created_at DESC"

/-! Proof-side decompositions of the SQL templates: each template is its
leading indentation `ws9`, a core, and interpolation points.  These defs are
only rearrangements (by `rfl`) of the handler literals above. -/

/-- The newline-and-indentation block surrounding every triple-quoted
template. -/
def ws9 : String := "\n        "

/-- Core of the top-usage template (leading whitespace removed). -/
def tuCore : String := "SELECT a.name as agent_name, \n               SUM(b.tokens_used) as total_tokens,\n               SUM(b.total_cost_usd) as total_cost\n        FROM billing_usage b \n        JOIN agents a ON b.agent_id = a.id \n        GROUP BY a.name \n        ORDER BY total_tokens DESC \n        LIMIT "

/-- The fixed head of every time filter. -/
def dtPre : String := "datetime('now', '-"

/-- Head of the top-errors template up to the time filter. -/
def teA0 : String := "SELECT code, message, source, COUNT(*) as error_count \n        FROM errors \n        WHERE created_at >= "

/-- Tail of the top-errors template between the time filter and the limit. -/
def teT2 : String := "\n        GROUP BY code, message, source \n        ORDER BY error_count DESC \n        LIMIT "

/-- Head of the errors-timeframe template up to the time filter. -/
def etA0 : String := "SELECT * \n        FROM errors \n        WHERE created_at >= "

/-- Tail of the errors-timeframe template after the time filter. -/
def etT2 : String := "\n        ORDER BY created_at DESC"

/-- Head of the failed-tests template up to the time filter. -/
def ftA0 : String := "SELECT tr.*, a.name as agent_name \n        FROM test_runs tr \n        JOIN agents a ON tr.agent_id = a.id \n        WHERE tr.result = 'fail' \n        AND tr.created_at >= "

/-- Tail of the failed-tests template after the time filter. -/
def ftT2 : String := "\n        ORDER BY tr.created_at DESC"

/-- Head of the agents-by-language template up to (excluding) the opening
quote of the language code. -/
def alA0 : String := "SELECT a.*, w.name as workspace_name \n        FROM agents a \n        JOIN workspaces w ON a.workspace_id = w.id \n        WHERE a.language = "

/-- Tail of the agents-by-language template after (excluding) the closing
quote of the language code. -/
def alT2 : String := "\n        ORDER BY a.created_at DESC"

/-- The safety facts proved about every generated SQL string: the
specification's postcondition (`sqlSafe`), absence of semicolons anywhere in
the raw string, and an even number of single quotes (all quotes come in
template pairs; no quote from the input reaches the SQL). -/
def SqlOk (s : String) : Prop :=
  sqlSafe s = true
    ∧ s.data.all (fun c => !(c == ';')) = true
    ∧ (s.data.count squoteChar) % 2 = 0

/-- Per-rule correctness bundle used by the dispatch-level proofs: whatever
a rule's handler returns, on captures produced by its recognizer, is either
the count rule's `(None, None)` pair or a (SQL, explanation) pair of two
present strings whose SQL satisfies `SqlOk`. -/
def RuleGood (p : List Atom × (List String → String → HandlerResult)) : Prop :=
  ∀ q caps r, searchL p.1 q.data = some caps → p.2 caps q = some r →
    r = (none, none) ∨ ∃ s e, r = (some s, some e) ∧ SqlOk s

/-! ## Character lemmas -/

theorem isSpaceChar_cases {c : Char} (h : isSpaceChar c = true) :
    c = ' ' ∨ c = '\t' ∨ c = '\n' ∨ c = '\x0d' ∨ c = '\x0b' ∨ c = '\x0c' := by
  simpa only [isSpaceChar, Bool.or_eq_true, decide_eq_true_eq, or_assoc] using h

theorem space_false_of_digit {c : Char} (h : isDigitChar c = true) : isSpaceChar c = false := by
  cases hs : isSpaceChar c with
  | false => rfl
  | true => rcases isSpaceChar_cases hs with rfl | rfl | rfl | rfl | rfl | rfl <;> exact absurd h (by decide)

theorem space_false_of_word {c : Char} (h : isWordChar c = true) : isSpaceChar c = false := by
  cases hs : isSpaceChar c with
  | false => rfl
  | true => rcases isSpaceChar_cases hs with rfl | rfl | rfl | rfl | rfl | rfl <;> exact absurd h (by decide)

theorem digitChar_digit {k : Nat} (hk : k < 10) : isDigitChar (digitChar k) = true := by
  interval_cases k <;> decide

/-- Upper-casing fixes digits (their codes lie below the lowercase range). -/
theorem toUpper_of_digit {c : Char} (h : isDigitChar c = true) : Char.toUpper c = c := by
  simp only [isDigitChar, Bool.and_eq_true, decide_eq_true_eq] at h
  unfold Char.toUpper
  rw [if_neg (by omega)]

/-- Upper-casing either fixes a character or produces an uppercase letter. -/
theorem toUpper_bounds (c : Char) :
    Char.toUpper c = c ∨ (65 ≤ (Char.toUpper c).toNat ∧ (Char.toUpper c).toNat ≤ 90) := by
  unfold Char.toUpper
  by_cases hc : c.toNat ≥ 97 ∧ c.toNat ≤ 122
  · right
    rw [if_pos hc]
    obtain ⟨m, hm⟩ : ∃ m, c.toNat - 32 = m := ⟨_, rfl⟩
    have h1 : 65 ≤ m := by omega
    have h2 : m ≤ 90 := by omega
    rw [hm]
    interval_cases m <;> exact ⟨by decide, by decide⟩
  · left
    rw [if_neg hc]

/-- A character whose code is below the uppercase letters is only hit by
`toUpper` from itself. -/
theorem eq_of_toUpper_eq_low {c e : Char} (he : e.toNat < 65) (h : Char.toUpper c = e) :
    c = e := by
  rcases toUpper_bounds c with h' | ⟨h1, _⟩
  · rw [h'] at h
    exact h
  · rw [h] at h1
    omega

/-! ## Strip lemmas -/

theorem dropWhile_append_all {p : Char → Bool} :
    ∀ (pre x : List Char), (∀ c ∈ pre, p c = true) →
      List.dropWhile p (pre ++ x) = List.dropWhile p x
  | [], _, _ => rfl
  | c :: t, x, h => by
      rw [List.cons_append, List.dropWhile_cons_of_pos (h c (by simp))]
      exact dropWhile_append_all t x fun d hd => h d (by simp [hd])

/-- Stripping a string that is known whitespace, then a body with non-blank
ends, then whitespace, returns exactly the body. -/
theorem stripL_concat {pre mid suf : List Char}
    (hpre : ∀ c ∈ pre, isSpaceChar c = true)
    (hsuf : ∀ c ∈ suf, isSpaceChar c = true)
    (hne : mid ≠ [])
    (hhead : ∀ c, mid.head? = some c → isSpaceChar c = false)
    (hlast : ∀ c, mid.getLast? = some c → isSpaceChar c = false) :
    stripL (pre ++ mid ++ suf) = mid := by
  obtain ⟨c, t, rfl⟩ := List.exists_cons_of_ne_nil hne
  unfold stripL
  have h1 : List.dropWhile isSpaceChar (c :: (t ++ suf)) = c :: (t ++ suf) :=
    List.dropWhile_cons_of_neg (by simp [hhead c rfl])
  rw [List.append_assoc, dropWhile_append_all pre _ hpre, List.cons_append, h1,
      ← List.cons_append, List.reverse_append,
      dropWhile_append_all suf.reverse _ (fun d hd => hsuf d (List.mem_reverse.mp hd))]
  obtain ⟨d, r, hdr⟩ := List.exists_cons_of_ne_nil (l := (c :: t).reverse) (by simp)
  have hd : isSpaceChar d = false := by
    apply hlast
    rw [← List.head?_reverse, hdr]
    rfl
  have h2 : List.dropWhile isSpaceChar (d :: r) = d :: r :=
    List.dropWhile_cons_of_neg (by simp [hd])
  rw [hdr, h2, ← hdr, List.reverse_reverse]

/-! ## Capture-shape lemmas -/

theorem findSome?_exists {α β : Type _} {f : α → Option β} {l : List α} {b : β}
    (h : l.findSome? f = some b) : ∃ a, a ∈ l ∧ f a = some b := by
  obtain ⟨l₁, a, l₂, rfl, hfa, -⟩ := List.findSome?_eq_some_iff.mp h
  exact ⟨a, by simp, hfa⟩

theorem capSpecs_cons (a : Atom) (rest : List Atom) :
    capSpecs (a :: rest) = atomCapSpecs a ++ capSpecs rest := by
  simp [capSpecs]

theorem capSpecs_append (xs ys : List Atom) :
    capSpecs (xs ++ ys) = capSpecs xs ++ capSpecs ys := by
  simp [capSpecs]

theorem atomsOk_append {xs ys : List Atom} (hx : atomsOk xs = true) (hy : atomsOk ys = true) :
    atomsOk (xs ++ ys) = true := by
  induction xs with
  | nil => exact hy
  | cons a t ih =>
      simp only [atomsOk, Bool.and_eq_true] at hx
      simp only [List.cons_append, atomsOk, Bool.and_eq_true]
      exact ⟨hx.1, ih hx.2⟩

theorem capSpecs_eq_nil_of_noCaps {gs : List Atom} (h : noCapsAtoms gs = true) :
    capSpecs gs = [] := by
  induction gs with
  | nil => rfl
  | cons a t ih =>
      simp only [noCapsAtoms, Bool.and_eq_true] at h
      rw [capSpecs_cons, ih h.2, List.append_nil]
      cases a with
      | cplus cl cap => cases cap with
          | false => rfl
          | true => simp [noCapsAtom] at h
      | altLit ws cap => cases cap with
          | false => rfl
          | true => simp [noCapsAtom] at h
      | lit w => rfl
      | cstar cl => rfl
      | optChar ch => rfl
      | optGrp gs2 => rfl

theorem atomsOk_of_noCaps {gs : List Atom} (h : noCapsAtoms gs = true) :
    atomsOk gs = true := by
  induction gs with
  | nil => rfl
  | cons a t ih =>
      simp only [noCapsAtoms, Bool.and_eq_true] at h
      simp only [atomsOk, Bool.and_eq_true]
      refine ⟨?_, ih h.2⟩
      cases a with
      | optGrp gs2 => exact h.1
      | lit w => rfl
      | cplus cl cap => rfl
      | cstar cl => rfl
      | optChar ch => rfl
      | altLit ws cap => rfl

/-- The central capture-shape lemma: a successful match appends to the
incoming capture list exactly one string per capturing atom, each conforming
to its `CapSpec`. -/
theorem matchAtoms_spec (fuel : Nat) :
    ∀ (atoms : List Atom) (s : List Char) (caps caps' : List String),
      atomsOk atoms = true →
      matchAtoms fuel atoms s caps = some caps' →
      ∃ extra, caps' = caps ++ extra ∧ List.Forall₂ SpecMatch (capSpecs atoms) extra := by
  induction fuel with
  | zero =>
      intro atoms s caps caps' _ h
      cases atoms with
      | nil =>
          refine ⟨[], ?_, ?_⟩
          · simpa [matchAtoms] using h.symm
          · exact List.Forall₂.nil
      | cons a rest => simp [matchAtoms] at h
  | succ fuel ih =>
      intro atoms s caps caps' hok h
      cases atoms with
      | nil =>
          refine ⟨[], ?_, ?_⟩
          · simpa [matchAtoms] using h.symm
          · exact List.Forall₂.nil
      | cons a rest =>
          simp only [atomsOk, Bool.and_eq_true] at hok
          cases a with
          | lit w =>
              rw [show matchAtoms (fuel + 1) (Atom.lit w :: rest) s caps =
                    (if w.data.isPrefixOf s then
                      matchAtoms fuel rest (s.drop w.data.length) caps else none) from rfl] at h
              split at h
              · obtain ⟨extra, he, hf⟩ := ih rest _ _ _ hok.2 h
                exact ⟨extra, he, by simpa [capSpecs_cons, atomCapSpecs] using hf⟩
              · exact absurd h (by simp)
          | cplus cl cap =>
              rw [show matchAtoms (fuel + 1) (Atom.cplus cl cap :: rest) s caps =
                    ((List.range (s.takeWhile (cmatch cl)).length).map
                        (fun j => (s.takeWhile (cmatch cl)).length - j)).findSome? (fun k =>
                      matchAtoms fuel rest (s.drop k)
                        (caps ++ (if cap then [⟨s.take k⟩] else []))) from rfl] at h
              obtain ⟨k, hkmem, hkeq⟩ := findSome?_exists h
              obtain ⟨j, hj, rfl⟩ := List.mem_map.mp hkmem
              have hj' : j < (s.takeWhile (cmatch cl)).length := List.mem_range.mp hj
              obtain ⟨extra, he, hf⟩ := ih rest _ _ _ hok.2 hkeq
              set n := (s.takeWhile (cmatch cl)).length with hn
              have hk1 : 1 ≤ n - j := by omega
              have hkn : n - j ≤ n := by omega
              have hns : n ≤ s.length := by
                rw [hn]; exact (List.takeWhile_prefix (cmatch cl)).length_le
              have htake : s.take (n - j) = (s.takeWhile (cmatch cl)).take (n - j) := by
                obtain ⟨u, hu⟩ := List.takeWhile_prefix (l := s) (cmatch cl)
                conv_lhs => rw [← hu]
                rw [List.take_append_of_le_length (by omega)]
              have hchars : ∀ c ∈ s.take (n - j), cmatch cl c = true := by
                intro c hc
                rw [htake] at hc
                exact List.mem_takeWhile_imp (List.mem_of_mem_take hc)
              have hnonempty : s.take (n - j) ≠ [] := by
                have : (s.take (n - j)).length = n - j := by
                  rw [List.length_take]; omega
                intro hnil
                rw [hnil] at this
                simp at this
                omega
              cases cap with
              | false =>
                  simp only [if_neg (by simp : ¬ (false = true)), List.append_nil] at hkeq he
                  refine ⟨extra, he, ?_⟩
                  simpa [capSpecs_cons, atomCapSpecs] using hf
              | true =>
                  simp only [if_pos rfl] at he
                  refine ⟨⟨s.take (n - j)⟩ :: extra, by simpa using he, ?_⟩
                  rw [capSpecs_cons]
                  exact List.Forall₂.cons ⟨hnonempty, hchars⟩ hf
          | cstar cl =>
              rw [show matchAtoms (fuel + 1) (Atom.cstar cl :: rest) s caps =
                    ((List.range ((s.takeWhile (cmatch cl)).length + 1)).map
                        (fun j => (s.takeWhile (cmatch cl)).length - j)).findSome? (fun k =>
                      matchAtoms fuel rest (s.drop k) caps) from rfl] at h
              obtain ⟨k, _, hkeq⟩ := findSome?_exists h
              obtain ⟨extra, he, hf⟩ := ih rest _ _ _ hok.2 hkeq
              exact ⟨extra, he, by simpa [capSpecs_cons, atomCapSpecs] using hf⟩
          | optChar ch =>
              have hres : ∃ s', matchAtoms fuel rest s' caps = some caps' := by
                cases s with
                | nil => exact ⟨[], h⟩
                | cons c₂ t =>
                    rw [show matchAtoms (fuel + 1) (Atom.optChar ch :: rest) (c₂ :: t) caps =
                          (if c₂ = ch then
                            matchAtoms fuel rest t caps <|> matchAtoms fuel rest (c₂ :: t) caps
                          else matchAtoms fuel rest (c₂ :: t) caps) from rfl] at h
                    by_cases hc : c₂ = ch
                    · rw [if_pos hc] at h
                      rcases (Option.orElse_eq_some _ _ _).mp h with h' | ⟨-, h'⟩
                      · exact ⟨t, h'⟩
                      · exact ⟨c₂ :: t, h'⟩
                    · rw [if_neg hc] at h
                      exact ⟨c₂ :: t, h⟩
              obtain ⟨s', hs'⟩ := hres
              obtain ⟨extra, he, hf⟩ := ih rest _ _ _ hok.2 hs'
              exact ⟨extra, he, by simpa [capSpecs_cons, atomCapSpecs] using hf⟩
          | altLit ws cap =>
              rw [show matchAtoms (fuel + 1) (Atom.altLit ws cap :: rest) s caps =
                    ws.findSome? (fun w =>
                      if w.data.isPrefixOf s then
                        matchAtoms fuel rest (s.drop w.data.length)
                          (caps ++ (if cap then [w] else []))
                      else none) from rfl] at h
              obtain ⟨w, hwmem, hweq⟩ := findSome?_exists h
              split at hweq
              · obtain ⟨extra, he, hf⟩ := ih rest _ _ _ hok.2 hweq
                cases cap with
                | false =>
                    simp only [if_neg (by simp : ¬ (false = true)), List.append_nil] at he
                    exact ⟨extra, he, by simpa [capSpecs_cons, atomCapSpecs] using hf⟩
                | true =>
                    simp only [if_pos rfl] at he
                    refine ⟨w :: extra, by simpa using he, ?_⟩
                    rw [capSpecs_cons]
                    exact List.Forall₂.cons hwmem hf
              · exact absurd hweq (by simp)
          | optGrp gs =>
              rw [show matchAtoms (fuel + 1) (Atom.optGrp gs :: rest) s caps =
                    (matchAtoms fuel (gs ++ rest) s caps <|>
                      matchAtoms fuel rest s caps) from rfl] at h
              have hgok : noCapsAtoms gs = true := hok.1
              rcases (Option.orElse_eq_some _ _ _).mp h with h' | ⟨-, h'⟩
              · obtain ⟨extra, he, hf⟩ :=
                  ih (gs ++ rest) _ _ _ (atomsOk_append (atomsOk_of_noCaps hgok) hok.2) h'
                refine ⟨extra, he, ?_⟩
                rw [capSpecs_append, capSpecs_eq_nil_of_noCaps hgok] at hf
                simpa [capSpecs_cons, atomCapSpecs] using hf
              · obtain ⟨extra, he, hf⟩ := ih rest _ _ _ hok.2 h'
                exact ⟨extra, he, by simpa [capSpecs_cons, atomCapSpecs] using hf⟩

/-- Capture shapes through `re.search`. -/
theorem searchL_spec {atoms : List Atom} (hok : atomsOk atoms = true) :
    ∀ {s : List Char} {caps : List String}, searchL atoms s = some caps →
      List.Forall₂ SpecMatch (capSpecs atoms) caps := by
  intro s
  induction s with
  | nil =>
      intro caps h
      rw [show searchL atoms [] = matchAtoms (atomsSize atoms) atoms [] [] from rfl] at h
      obtain ⟨extra, he, hf⟩ := matchAtoms_spec _ _ _ _ _ hok h
      rw [List.nil_append] at he
      rw [he]
      exact hf
  | cons c t iht =>
      intro caps h
      rw [show searchL atoms (c :: t) =
            (match matchAtoms (atomsSize atoms) atoms (c :: t) [] with
              | some caps => some caps
              | none => searchL atoms t) from rfl] at h
      rcases hm : matchAtoms (atomsSize atoms) atoms (c :: t) [] with - | caps₀
      · rw [hm] at h
        exact iht h
      · rw [hm] at h
        obtain ⟨extra, he, hf⟩ := matchAtoms_spec _ _ _ _ _ hok hm
        have hc : caps = caps₀ := by cases h; rfl
        rw [List.nil_append] at he
        rw [hc, he]
        exact hf

/-! ## Keyword-occurrence lemmas -/

set_option maxRecDepth 1000000

/-- A whole-token occurrence is in particular an infix occurrence. -/
theorem infix_of_hasWholeToken {kw s : List Char} (h : hasWholeToken kw s = true) :
    kw <:+: s := by
  unfold hasWholeToken at h
  obtain ⟨i, -, hocc⟩ := List.any_eq_true.mp h
  unfold occursWholeTokenAt at hocc
  have htake : (s.drop i).take kw.length = kw := by
    simp only [Bool.and_eq_true, beq_iff_eq] at hocc
    exact hocc.1.1
  rw [← htake]
  exact (List.take_prefix kw.length (s.drop i)).isInfix.trans
    (List.drop_suffix i s).isInfix

/-- An infix occurrence of a word all of whose characters satisfy `p` cannot
straddle a non-empty middle block none of whose characters satisfy `p`: it
lies wholly in the left or the right part. -/
theorem infix_split {p : Char → Bool} {kw m : List Char}
    (hkw : ∀ c ∈ kw, p c = true) (hm : ∀ c ∈ m, p c = false) (hmne : m ≠ []) :
    ∀ {a b : List Char}, kw <:+: a ++ (m ++ b) → kw <:+: a ∨ kw <:+: b := by
  intro a b h
  by_cases hk0 : kw = []
  · subst hk0
    exact Or.inl List.nil_infix
  obtain ⟨t, u, htu⟩ := h
  have hm0 : m.length ≠ 0 := fun hh => hmne (List.eq_nil_of_length_eq_zero hh)
  have hkwlen : kw.length ≠ 0 := fun hh => hk0 (List.eq_nil_of_length_eq_zero hh)
  by_cases h1 : t.length + kw.length ≤ a.length
  · left
    have e1 : (t ++ kw ++ u).take (t.length + kw.length) = t ++ kw := by
      rw [List.take_append_of_le_length (by simp)]
      simp
    have e2 : (a ++ (m ++ b)).take (t.length + kw.length) =
        a.take (t.length + kw.length) := List.take_append_of_le_length h1
    have e3 : t ++ kw = a.take (t.length + kw.length) := by rw [← e1, htu, e2]
    have h4 : t ++ kw <+: a := e3 ▸ List.take_prefix _ a
    exact (List.suffix_append t kw).isInfix.trans h4.isInfix
  by_cases h2 : a.length + m.length ≤ t.length
  · right
    have e1 : (t ++ kw ++ u).drop t.length = kw ++ u := by
      rw [List.append_assoc]
      exact List.drop_left t (kw ++ u)
    have e2 : (a ++ (m ++ b)).drop t.length =
        b.drop (t.length - a.length - m.length) := by
      rw [← List.append_assoc]
      conv_lhs =>
        rw [show t.length = (a ++ m).length + (t.length - a.length - m.length) from by
          simp only [List.length_append]
          omega]
      rw [List.drop_append]
    have e3 : kw ++ u = b.drop (t.length - a.length - m.length) := by
      rw [← e1, htu, e2]
    have h4 : kw ++ u <:+ b := e3 ▸ List.drop_suffix _ b
    exact (List.prefix_append kw u).isInfix.trans h4.isInfix
  exfalso
  push_neg at h1 h2
  obtain ⟨j, hjt, hja, hjk, hjm⟩ :
      ∃ j, t.length ≤ j ∧ a.length ≤ j ∧ j < t.length + kw.length
        ∧ j < a.length + m.length := by
    rcases Nat.le_total t.length a.length with hle | hle
    · exact ⟨a.length, hle, Nat.le_refl _, by omega, by omega⟩
    · exact ⟨t.length, Nat.le_refl _, hle, by omega, by omega⟩
  have hjlt : j < (t ++ kw ++ u).length := by
    simp only [List.length_append]
    omega
  have hjrt : j < (a ++ (m ++ b)).length := by
    rw [← htu]
    exact hjlt
  have hbk : j - t.length < kw.length := by omega
  have hbm : j - a.length < m.length := by omega
  have hbtk : j < (t ++ kw).length := by
    simp only [List.length_append]
    omega
  have hclhs : (t ++ kw ++ u)[j] = kw[j - t.length] := by
    rw [List.getElem_append_left hbtk, List.getElem_append_right hjt]
  have hcrhs : (a ++ (m ++ b))[j] = m[j - a.length] := by
    rw [List.getElem_append_right hja, List.getElem_append_left hbm]
  have hjj : kw[j - t.length] = m[j - a.length] := by
    rw [← hclhs, ← hcrhs]
    simp only [htu]
  have hp1 : p (kw[j - t.length]) = true := hkw _ (List.getElem_mem _)
  have hp2 : p (m[j - a.length]) = false := hm _ (List.getElem_mem _)
  rw [hjj, hp2] at hp1
  exact Bool.false_ne_true hp1

/-! ## Digit-string lemmas -/

theorem natDecAux_digits : ∀ (fuel n : Nat), ∀ c ∈ natDecAux fuel n, isDigitChar c = true := by
  intro fuel
  induction fuel with
  | zero =>
      intro n c hc
      simp [natDecAux] at hc
  | succ fuel ih =>
      intro n c hc
      by_cases hn : n = 0
      · simp [natDecAux, hn] at hc
      · rw [show natDecAux (fuel + 1) n = natDecAux fuel (n / 10) ++ [digitChar (n % 10)]
              from by simp [natDecAux, hn]] at hc
        rcases List.mem_append.mp hc with hc | hc
        · exact ih _ _ hc
        · have hc' : c = digitChar (n % 10) := by simpa using hc
          rw [hc']
          exact digitChar_digit (Nat.mod_lt _ (by omega))

theorem natRepr_digits {n : Nat} : ∀ c ∈ (natRepr n).data, isDigitChar c = true := by
  intro c hc
  unfold natRepr at hc
  by_cases hn : n = 0
  · rw [if_pos hn] at hc
    have hc' : c = '0' := by simpa using hc
    rw [hc']
    decide
  · rw [if_neg hn] at hc
    exact natDecAux_digits n n c hc

theorem natRepr_ne_nil {n : Nat} : (natRepr n).data ≠ [] := by
  unfold natRepr
  by_cases hn : n = 0
  · rw [if_pos hn]
    decide
  · rw [if_neg hn]
    show natDecAux n n ≠ []
    obtain ⟨m, rfl⟩ : ∃ m, n = m + 1 := ⟨n - 1, by omega⟩
    rw [show natDecAux (m + 1) (m + 1) =
          natDecAux m ((m + 1) / 10) ++ [digitChar ((m + 1) % 10)] from by simp [natDecAux]]
    simp

theorem digit_not_semicolon {c : Char} (h : isDigitChar c = true) : (c == ';') = false := by
  cases hb : c == ';' with
  | false => rfl
  | true =>
      have hc : c = ';' := eq_of_beq hb
      rw [hc] at h
      exact absurd h (by decide)

theorem word_not_semicolon {c : Char} (h : isWordChar c = true) : (c == ';') = false := by
  cases hb : c == ';' with
  | false => rfl
  | true =>
      have hc : c = ';' := eq_of_beq hb
      rw [hc] at h
      exact absurd h (by decide)

theorem digit_not_squote {c : Char} (h : isDigitChar c = true) : c ≠ squoteChar := by
  intro hc
  rw [hc] at h
  exact absurd h (by decide)

theorem word_not_squote {c : Char} (h : isWordChar c = true) : c ≠ squoteChar := by
  intro hc
  rw [hc] at h
  exact absurd h (by decide)

theorem map_up_digits {L : List Char} (h : ∀ c ∈ L, isDigitChar c = true) :
    ∀ c ∈ L.map Char.toUpper, isDigitChar c = true := by
  intro c hc
  obtain ⟨d, hd, rfl⟩ := List.mem_map.mp hc
  rw [toUpper_of_digit (h d hd)]
  exact h d hd

theorem count_squote_zero_of_digit {L : List Char} (h : ∀ c ∈ L, isDigitChar c = true) :
    L.count squoteChar = 0 :=
  List.count_eq_zero.mpr (fun hmem => digit_not_squote (h _ hmem) rfl)

theorem count_squote_zero_of_word {L : List Char} (h : ∀ c ∈ L, isWordChar c = true) :
    L.count squoteChar = 0 :=
  List.count_eq_zero.mpr (fun hmem => word_not_squote (h _ hmem) rfl)

theorem all_not_semicolon_of_digit {L : List Char} (h : ∀ c ∈ L, isDigitChar c = true) :
    (L.all (fun c => !(c == ';'))) = true :=
  List.all_eq_true.mpr (fun c hc => by rw [digit_not_semicolon (h c hc)]; rfl)

theorem all_not_semicolon_of_word {L : List Char} (h : ∀ c ∈ L, isWordChar c = true) :
    (L.all (fun c => !(c == ';'))) = true :=
  List.all_eq_true.mpr (fun c hc => by rw [word_not_semicolon (h c hc)]; rfl)

theorem isPrefixOf_of_prefix_left {p x : List Char} (y : List Char)
    (h : p.isPrefixOf x = true) : p.isPrefixOf (x ++ y) = true := by
  rw [List.isPrefixOf_iff_prefix] at h ⊢
  exact h.trans (List.prefix_append x y)

theorem head?_append_left {l₁ : List Char} (l₂ : List Char) (h : l₁ ≠ []) :
    (l₁ ++ l₂).head? = l₁.head? := by
  cases l₁ with
  | nil => exact absurd rfl h
  | cons c t => rfl

theorem getLast?_append_right {l₂ : List Char} (l₁ : List Char) (h : l₂ ≠ []) :
    (l₁ ++ l₂).getLast? = l₂.getLast? := by
  rw [← List.head?_reverse, List.reverse_append,
      head?_append_left _ (by simpa using h), List.head?_reverse]

theorem mem_of_getLast? {l : List Char} {c : Char} (h : l.getLast? = some c) : c ∈ l := by
  rw [← List.head?_reverse] at h
  have hmem : c ∈ l.reverse := by
    cases hr : l.reverse with
    | nil => rw [hr] at h; cases h
    | cons d r =>
        rw [hr] at h
        cases h
        exact List.mem_cons_self _ _
  exact List.mem_reverse.mp hmem

/-- No whole-token occurrence of a digit-free word in a text that is a
concrete part, then a non-empty digit block, then a concrete part. -/
theorem no_kw_one_middle {kw u U1 D U2 : List Char} (hu : u = U1 ++ (D ++ U2))
    (hkw : ∀ c ∈ kw, (!isDigitChar c) = true)
    (hkwU1 : ¬ kw <:+: U1) (hkwU2 : ¬ kw <:+: U2)
    (hD : ∀ c ∈ D, isDigitChar c = true) (hDne : D ≠ []) :
    hasWholeToken kw u = false := by
  subst hu
  cases hh : hasWholeToken kw (U1 ++ (D ++ U2)) with
  | false => rfl
  | true =>
      exfalso
      rcases infix_split hkw (fun c hc => by simp [hD c hc]) hDne
          (infix_of_hasWholeToken hh) with h | h
      exacts [hkwU1 h, hkwU2 h]

/-- As `no_kw_one_middle`, with two digit blocks. -/
theorem no_kw_two_middles {kw u U1 D1 U2 D2 U3 : List Char}
    (hu : u = U1 ++ (D1 ++ (U2 ++ (D2 ++ U3))))
    (hkw : ∀ c ∈ kw, (!isDigitChar c) = true)
    (hkwU1 : ¬ kw <:+: U1) (hkwU2 : ¬ kw <:+: U2) (hkwU3 : ¬ kw <:+: U3)
    (hD1 : ∀ c ∈ D1, isDigitChar c = true) (hD1ne : D1 ≠ [])
    (hD2 : ∀ c ∈ D2, isDigitChar c = true) (hD2ne : D2 ≠ []) :
    hasWholeToken kw u = false := by
  subst hu
  cases hh : hasWholeToken kw (U1 ++ (D1 ++ (U2 ++ (D2 ++ U3)))) with
  | false => rfl
  | true =>
      exfalso
      rcases infix_split hkw (fun c hc => by simp [hD1 c hc]) hD1ne
          (infix_of_hasWholeToken hh) with h | h
      · exact hkwU1 h
      rcases infix_split hkw (fun c hc => by simp [hD2 c hc]) hD2ne h with h' | h'
      exacts [hkwU2 h', hkwU3 h']

/-- No whole-token occurrence of a long quote-free word in a text whose only
unknown part is a short block between two single quotes. -/
theorem no_kw_quoted_middle {kw u U1 C U2 : List Char}
    (hu : u = U1 ++ ([squoteChar] ++ (C ++ ([squoteChar] ++ U2))))
    (hkw : ∀ c ∈ kw, (!(c == squoteChar)) = true)
    (hkwU1 : ¬ kw <:+: U1) (hkwU2 : ¬ kw <:+: U2)
    (hlen : C.length < kw.length) :
    hasWholeToken kw u = false := by
  subst hu
  cases hh : hasWholeToken kw (U1 ++ ([squoteChar] ++ (C ++ ([squoteChar] ++ U2)))) with
  | false => rfl
  | true =>
      exfalso
      have hq : ∀ c ∈ [squoteChar], (fun c => !(c == squoteChar)) c = false := by
        intro c hc
        have hc' : c = squoteChar := by simpa using hc
        simp [hc']
      rcases infix_split hkw hq (by simp) (infix_of_hasWholeToken hh) with h | h
      · exact hkwU1 h
      rcases infix_split hkw hq (by simp) h with h' | h'
      · have := h'.length_le
        omega
      · exact hkwU2 h'

/-! ## Per-rule correctness: the nine fixed-SQL rules -/

/-- The successful tests rule always returns its fixed safe SQL. -/
theorem ruleGood_successful_tests : RuleGood (pat_successful_tests, _handle_successful_tests) := by
  intro q caps r _ hh
  rw [show (pat_successful_tests, _handle_successful_tests).2 caps q =
        some (some (pyStrip "\n        SELECT tr.*, a.name as agent_name \n        FROM test_runs tr \n        JOIN agents a ON tr.agent_id = a.id \n        WHERE tr.result = 'pass' \n        ORDER BY tr.created_at DESC\n        "),
          some "Finding all successful test runs") from rfl] at hh
  cases hh
  right
  exact ⟨_, _, rfl, by decide, by decide, by decide⟩

/-- The inactive integrations rule always returns its fixed safe SQL. -/
theorem ruleGood_inactive_integrations : RuleGood (pat_inactive_integrations, _handle_inactive_integrations) := by
  intro q caps r _ hh
  rw [show (pat_inactive_integrations, _handle_inactive_integrations).2 caps q =
        some (some (pyStrip "\n        SELECT i.*, w.name as workspace_name \n        FROM integrations i \n        JOIN workspaces w ON i.workspace_id = w.id \n        WHERE i.status = 'inactive'\n        ORDER BY i.created_at DESC\n        "),
          some "Finding all inactive integrations") from rfl] at hh
  cases hh
  right
  exact ⟨_, _, rfl, by decide, by decide, by decide⟩

/-- The integrations by status rule always returns its fixed safe SQL. -/
theorem ruleGood_integrations_by_status : RuleGood (pat_integrations_by_status, _handle_integrations_by_status) := by
  intro q caps r _ hh
  rw [show (pat_integrations_by_status, _handle_integrations_by_status).2 caps q =
        some (some (pyStrip "\n        SELECT type, status, COUNT(*) as count \n        FROM integrations \n        GROUP BY type, status \n        ORDER BY type, status\n        "),
          some "Grouping integrations by type and status") from rfl] at hh
  cases hh
  right
  exact ⟨_, _, rfl, by decide, by decide, by decide⟩

/-- The all agents rule always returns its fixed safe SQL. -/
theorem ruleGood_all_agents : RuleGood (pat_all_agents, _handle_all_agents) := by
  intro q caps r _ hh
  rw [show (pat_all_agents, _handle_all_agents).2 caps q =
        some (some (pyStrip "\n        SELECT a.*, w.name as workspace_name \n        FROM agents a \n        JOIN workspaces w ON a.workspace_id = w.id \n        ORDER BY a.created_at DESC\n        "),
          some "Listing all agents") from rfl] at hh
  cases hh
  right
  exact ⟨_, _, rfl, by decide, by decide, by decide⟩

/-- The all workspaces rule always returns its fixed safe SQL. -/
theorem ruleGood_all_workspaces : RuleGood (pat_all_workspaces, _handle_all_workspaces) := by
  intro q caps r _ hh
  rw [show (pat_all_workspaces, _handle_all_workspaces).2 caps q =
        some (some (pyStrip "\n        SELECT * \n        FROM workspaces \n        ORDER BY created_at DESC\n        "),
          some "Listing all workspaces") from rfl] at hh
  cases hh
  right
  exact ⟨_, _, rfl, by decide, by decide, by decide⟩

/-- The workspaces by plan rule always returns its fixed safe SQL. -/
theorem ruleGood_workspaces_by_plan : RuleGood (pat_workspaces_by_plan, _handle_workspaces_by_plan) := by
  intro q caps r _ hh
  rw [show (pat_workspaces_by_plan, _handle_workspaces_by_plan).2 caps q =
        some (some (pyStrip "\n        SELECT plan, COUNT(*) as count \n        FROM workspaces \n        GROUP BY plan \n        ORDER BY count DESC\n        "),
          some "Grouping workspaces by plan type") from rfl] at hh
  cases hh
  right
  exact ⟨_, _, rfl, by decide, by decide, by decide⟩

/-- The errors by source rule always returns its fixed safe SQL. -/
theorem ruleGood_errors_by_source : RuleGood (pat_errors_by_source, _handle_errors_by_source) := by
  intro q caps r _ hh
  rw [show (pat_errors_by_source, _handle_errors_by_source).2 caps q =
        some (some (pyStrip "\n        SELECT source, COUNT(*) as count \n        FROM errors \n        GROUP BY source \n        ORDER BY count DESC\n        "),
          some "Grouping errors by source") from rfl] at hh
  cases hh
  right
  exact ⟨_, _, rfl, by decide, by decide, by decide⟩

/-- The agent runs status rule always returns its fixed safe SQL. -/
theorem ruleGood_agent_runs_status : RuleGood (pat_agent_runs_status, _handle_agent_runs_status) := by
  intro q caps r _ hh
  rw [show (pat_agent_runs_status, _handle_agent_runs_status).2 caps q =
        some (some (pyStrip "\n        SELECT a.name as agent_name, ar.status, COUNT(*) as count \n        FROM agent_runs ar \n        JOIN agents a ON ar.agent_id = a.id \n        GROUP BY a.name, ar.status \n        ORDER BY a.name, ar.status\n        "),
          some "Grouping agent runs by status") from rfl] at hh
  cases hh
  right
  exact ⟨_, _, rfl, by decide, by decide, by decide⟩

/-- The billing by workspace rule always returns its fixed safe SQL. -/
theorem ruleGood_billing_by_workspace : RuleGood (pat_billing_by_workspace, _handle_billing_by_workspace) := by
  intro q caps r _ hh
  rw [show (pat_billing_by_workspace, _handle_billing_by_workspace).2 caps q =
        some (some (pyStrip "\n        SELECT w.name as workspace_name, \n               SUM(b.total_cost_usd) as total_cost, \n               SUM(b.tokens_used) as total_tokens,\n               SUM(b.calls_made) as total_calls\n        FROM billing_usage b \n        JOIN workspaces w ON b.workspace_id = w.id \n        GROUP BY w.id, w.name \n        ORDER BY total_cost DESC\n        "),
          some "Showing billing usage by workspace") from rfl] at hh
  cases hh
  right
  exact ⟨_, _, rfl, by decide, by decide, by decide⟩

/-! ## Dispatch helper -/

/-- When the first rule of a rule list matches and its handler succeeds,
dispatch returns the handler's result. -/
theorem tryPatterns_head_matches {pat : List Atom}
    {h : List String → String → HandlerResult}
    {rest : List (List Atom × (List String → String → HandlerResult))}
    {q : String} {caps : List String} {r : Option String × Option String}
    (hs : searchL pat q.data = some caps) (hh : h caps q = some r) :
    tryPatterns ((pat, h) :: rest) q = r := by
  simp only [tryPatterns, hs, hh]

/-! ## Claims -/

/-- C1, counterexample: on input "how many zzz" the count rule matches, the
captured entity "zzz" resolves to no catalog table, and `parse_question`
returns `(none, none)`: translation fails with no reason string at all, and
dispatch does not continue to later rules or to the keyword fallback (which
would have returned the non-empty could-not-understand reason, as the second
and third conjuncts show). -/
theorem c1_count_unresolved_counterexample :
    parse_question "how many zzz" = (none, none)
    ∧ _keyword_based_query "how many zzz" = (none, some couldNotUnderstand)
    ∧ couldNotUnderstand ≠ "" := by
  refine ⟨by decide, by decide, by decide⟩

/-- C3: rules are tried in fixed declaration order and the first matching
rule's generator determines the result: whenever the top-N-errors rule
(declared first) matches the normalized question and its generator succeeds,
`parse_question` returns exactly that generator's output; later rules, such
as the generic show-errors rule, are never consulted. -/
theorem c3_rule_priority (q : String) (caps : List String)
    (r : Option String × Option String)
    (hs : searchL pat_top_errors (pyStrip (pyLower q)).data = some caps)
    (hh : _handle_top_errors caps (pyStrip (pyLower q)) = some r) :
    parse_question q = r :=
  tryPatterns_head_matches hs hh

/-- C3 witness: on "top 5 errors in last 2 days" (the claim's instance) the
first rule matches with captures 5, 2, day, and `parse_question` returns the
top-N-errors output: grouped by code, message, source, ordered by count
descending, LIMIT 5. -/
theorem c3_rule_priority_witness :
    parse_question "top 5 errors in last 2 days" =
      (some "SELECT code, message, source, COUNT(*) as error_count \n        FROM errors \n        WHERE created_at >= datetime('now', '-2 days')\n        GROUP BY code, message, source \n        ORDER BY error_count DESC \n        LIMIT 5",
       some "Finding top 5 errors from the last 2 day(s)") :=
  c3_rule_priority _ ["5", "2", "day"] _ (by decide) (by decide)

/-- C4: time-window normalization: the captured (V, U) pair is normalized as
hour→V hours, day→V days, week→7·V days, month→30·V days, always rendered as
the relative expression `datetime('now', '-N unit')` (not an absolute
timestamp); end-to-end, "top 3 errors in last 2 week" generates a
`created_at >=` filter of 14 days and "top 3 errors in last 1 month" one of
30 days. -/
theorem c4_time_normalization (v : String) (n : Nat) (h : pyInt? v = some n) :
    (_get_time_filter v "hour" = some (tfString (n * 1) "hours")
     ∧ _get_time_filter v "day" = some (tfString (n * 1) "days")
     ∧ _get_time_filter v "week" = some (tfString (n * 7) "days")
     ∧ _get_time_filter v "month" = some (tfString (n * 30) "days"))
    ∧ parse_question "top 3 errors in last 2 week" =
        (some "SELECT code, message, source, COUNT(*) as error_count \n        FROM errors \n        WHERE created_at >= datetime('now', '-14 days')\n        GROUP BY code, message, source \n        ORDER BY error_count DESC \n        LIMIT 3",
         some "Finding top 3 errors from the last 2 week(s)")
    ∧ parse_question "top 3 errors in last 1 month" =
        (some "SELECT code, message, source, COUNT(*) as error_count \n        FROM errors \n        WHERE created_at >= datetime('now', '-30 days')\n        GROUP BY code, message, source \n        ORDER BY error_count DESC \n        LIMIT 3",
         some "Finding top 3 errors from the last 1 month(s)") := by
  refine ⟨⟨?_, ?_, ?_, ?_⟩, by decide, by decide⟩ <;>
    simp [_get_time_filter, h, tfString, multiplier, unit_map, List.lookup]

/-- C4 witness: the normalization equations applied at V = "2": two weeks
become 14 days, two hours stay 2 hours. -/
theorem c4_time_normalization_witness :
    _get_time_filter "2" "week" = some (tfString (2 * 7) "days")
    ∧ _get_time_filter "2" "hour" = some (tfString (2 * 1) "hours") :=
  ⟨(c4_time_normalization "2" 2 (by decide)).1.2.2.1,
   (c4_time_normalization "2" 2 (by decide)).1.1⟩

/-- C5, counterexample: the SQL returned for "How many agents" is not the
claimed string "SELECT COUNT(*) AS count FROM agents": the source writes the
alias keyword in lowercase, so the strings differ. -/
theorem c5_counterexample :
    (parse_question "How many agents").1 ≠ some "SELECT COUNT(*) AS count FROM agents" := by
  decide

/-- C5 (amended): on input "How many agents", `parse_question` returns the
SQL string "SELECT COUNT(*) as count FROM agents" (lowercase `as`), with
explanation "Counting total agents". -/
theorem c5_count_agents :
    parse_question "How many agents" =
      (some "SELECT COUNT(*) as count FROM agents", some "Counting total agents") := by
  decide

/-- C10: the count rule resolves its entity to the first table in catalog
declaration order whose name contains the entity as a substring or starts
with it, so when several tables qualify the earliest-declared one wins: on
"how many runs" both agent_runs and test_runs qualify (run_logs does not
contain the plural "runs"), agent_runs is declared first, and the count
targets it alone. -/
theorem c10_count_first_table :
    (parse_question "how many runs" =
      (some "SELECT COUNT(*) as count FROM agent_runs", some "Counting total runs"))
    ∧ countMatches "runs" "agent_runs" = true
    ∧ countMatches "runs" "test_runs" = true
    ∧ (∀ g q sql e, _handle_count [g] q = some (some sql, some e) →
        ∃ pre t post, tableNames = pre ++ t :: post
          ∧ countMatches (pyLower g) t = true
          ∧ (∀ t' ∈ pre, countMatches (pyLower g) t' = false)
          ∧ sql = pyStrip ("SELECT COUNT(*) as count FROM " ++ t)) := by
  refine ⟨by decide, by decide, by decide, ?_⟩
  intro g q sql e h
  rw [show _handle_count [g] q =
        (match tableNames.find? (fun t => countMatches (pyLower g) t) with
          | none => some (none, none)
          | some table =>
              some (some (pyStrip ("SELECT COUNT(*) as count FROM " ++ table)),
                some ("Counting total " ++ pyLower g))) from rfl] at h
  rcases hf : tableNames.find? (fun t => countMatches (pyLower g) t) with - | t
  · rw [hf] at h
    simp at h
  · rw [hf] at h
    obtain ⟨hp, as_, bs_, htn, hfirst⟩ := List.find?_eq_some.mp hf
    have hsql : sql = pyStrip ("SELECT COUNT(*) as count FROM " ++ t) := by
      cases h
      rfl
    exact ⟨as_, t, bs_, htn, hp, (fun t' ht' => by simpa using hfirst t' ht'), hsql⟩

/-- C10 witness: the first-qualifying-table property applied at entity
"runs" (from "how many runs"), whose resolved table is agent_runs. -/
theorem c10_count_first_table_witness :
    ∃ pre t post, tableNames = pre ++ t :: post
      ∧ countMatches (pyLower "runs") t = true
      ∧ (∀ t' ∈ pre, countMatches (pyLower "runs") t' = false)
      ∧ "SELECT COUNT(*) as count FROM agent_runs" =
          pyStrip ("SELECT COUNT(*) as count FROM " ++ t) :=
  c10_count_first_table.2.2.2 "runs" "how many runs"
    "SELECT COUNT(*) as count FROM agent_runs" "Counting total runs" (by decide)

/-! ## Per-rule correctness: the interpolating rules -/

theorem pyStrip_data (s : String) : (pyStrip s).data = stripL s.data := rfl

theorem sqlSafe_eq (s : String) : sqlSafe s =
    ("SELECT".data.isPrefixOf ((stripL s.data).map Char.toUpper)
      && (((stripL s.data).map Char.toUpper).all (fun c => !(c == ';'))
      && (badKeywords.all (fun kw => !hasWholeToken kw.data ((stripL s.data).map Char.toUpper))))) := by
  unfold sqlSafe sqlSafeL
  rw [Bool.and_assoc]

theorem forall₂_singleton_inv {spec : CapSpec} {caps : List String}
    (h : List.Forall₂ SpecMatch [spec] caps) : ∃ w, caps = [w] ∧ SpecMatch spec w := by
  cases h with
  | cons h1 htail =>
      cases htail
      exact ⟨_, rfl, h1⟩

theorem forall₂_pair_inv {s1 s2 : CapSpec} {caps : List String}
    (h : List.Forall₂ SpecMatch [s1, s2] caps) :
    ∃ w1 w2, caps = [w1, w2] ∧ SpecMatch s1 w1 ∧ SpecMatch s2 w2 := by
  cases h with
  | cons h1 h' =>
      cases h' with
      | cons h2 h'' =>
          cases h''
          exact ⟨_, _, rfl, h1, h2⟩

theorem forall₂_triple_inv {s1 s2 s3 : CapSpec} {caps : List String}
    (h : List.Forall₂ SpecMatch [s1, s2, s3] caps) :
    ∃ w1 w2 w3, caps = [w1, w2, w3] ∧ SpecMatch s1 w1 ∧ SpecMatch s2 w2 ∧ SpecMatch s3 w3 := by
  cases h with
  | cons h1 h' =>
      cases h' with
      | cons h2 h'' =>
          cases h'' with
          | cons h3 h''' =>
              cases h'''
              exact ⟨_, _, _, rfl, h1, h2, h3⟩

/-- Generic safety of a generated statement of the shape
whitespace ++ core ++ digits ++ whitespace (after `.strip()`). -/
theorem sqlOk_core_digits (A : String) {s d : String}
    (hdata : s.data = (ws9.data ++ (A.data ++ d.data)) ++ ws9.data)
    (hdne : d.data ≠ []) (hdig : ∀ c ∈ d.data, isDigitChar c = true)
    (hAne : A.data ≠ [])
    (hheadA : ∀ c, A.data.head? = some c → isSpaceChar c = false)
    (hpre : "SELECT".data.isPrefixOf (A.data.map Char.toUpper) = true)
    (hsemiA : (A.data.all (fun c => !(c == ';'))) = true)
    (hsemiAU : ((A.data.map Char.toUpper).all (fun c => !(c == ';'))) = true)
    (hqA : A.data.count squoteChar = 0)
    (hkws : ∀ kw ∈ badKeywords, ¬ (kw.data <:+: A.data.map Char.toUpper)) :
    SqlOk (pyStrip s) := by
  have hhead : ∀ c, (A.data ++ d.data).head? = some c → isSpaceChar c = false := by
    intro c hc
    rw [head?_append_left _ hAne] at hc
    exact hheadA c hc
  have hlast : ∀ c, (A.data ++ d.data).getLast? = some c → isSpaceChar c = false := by
    intro c hc
    rw [getLast?_append_right _ hdne] at hc
    exact space_false_of_digit (hdig c (mem_of_getLast? hc))
  have hmidne : A.data ++ d.data ≠ [] := by
    intro hh
    exact hAne (List.append_eq_nil.mp hh).1
  have hws : ∀ c ∈ ws9.data, isSpaceChar c = true := by decide
  have hstrip : stripL s.data = A.data ++ d.data := by
    rw [hdata]
    exact stripL_concat hws hws hmidne hhead hlast
  have hself : stripL (A.data ++ d.data) = A.data ++ d.data := by
    have h0 := @stripL_concat [] (A.data ++ d.data) [] (by simp) (by simp) hmidne hhead hlast
    simpa using h0
  refine ⟨?_, ?_, ?_⟩
  · rw [sqlSafe_eq, pyStrip_data, hstrip, hself, List.map_append]
    simp only [Bool.and_eq_true]
    refine ⟨?_, ?_, ?_⟩
    · exact isPrefixOf_of_prefix_left _ hpre
    · rw [List.all_append]
      simp only [Bool.and_eq_true]
      exact ⟨hsemiAU, all_not_semicolon_of_digit (map_up_digits hdig)⟩
    · rw [List.all_eq_true]
      intro kw hkwmem
      have hkwfacts : kw.data ≠ [] ∧ (∀ c ∈ kw.data, (!isDigitChar c) = true) := by
        fin_cases hkwmem <;> exact ⟨by decide, by decide⟩
      have hno : hasWholeToken kw.data
          (A.data.map Char.toUpper ++ d.data.map Char.toUpper) = false :=
        no_kw_one_middle (by simp) hkwfacts.2 (hkws kw hkwmem)
          (fun h => hkwfacts.1 (List.eq_nil_of_infix_nil h))
          (map_up_digits hdig) (by simpa using hdne)
      rw [hno]
      rfl
  · rw [pyStrip_data, hstrip, List.all_append]
    simp only [Bool.and_eq_true]
    exact ⟨hsemiA, all_not_semicolon_of_digit hdig⟩
  · rw [pyStrip_data, hstrip, List.count_append, hqA,
        count_squote_zero_of_digit hdig]

/-- The top-usage rule: its one capture is a digit run and the generated
SQL is safe. -/
theorem ruleGood_top_usage : RuleGood (pat_top_usage, _handle_top_usage) := by
  intro q caps r hs hh
  have hs' : searchL pat_top_usage q.data = some caps := hs
  have hh' : _handle_top_usage caps q = some r := hh
  have hspec := searchL_spec (by decide) hs'
  rw [show capSpecs pat_top_usage = [CapSpec.ofClass CClass.digit] from rfl] at hspec
  obtain ⟨l, rfl, hspec1⟩ := forall₂_singleton_inv hspec
  obtain ⟨hlne, hldig⟩ := hspec1
  rw [show _handle_top_usage [l] q =
        some (some (pyStrip ("\n        SELECT a.name as agent_name, \n               SUM(b.tokens_used) as total_tokens,\n               SUM(b.total_cost_usd) as total_cost\n        FROM billing_usage b \n        JOIN agents a ON b.agent_id = a.id \n        GROUP BY a.name \n        ORDER BY total_tokens DESC \n        LIMIT " ++ l ++ "\n        ")),
          some ("Finding top " ++ l ++ " agents by token usage")) from rfl] at hh'
  cases hh'
  right
  refine ⟨_, _, rfl, ?_⟩
  refine sqlOk_core_digits tuCore ?_ hlne hldig (by decide) ?_ (by decide) (by decide)
    (by decide) (by decide) ?_
  · rw [show ("\n        SELECT a.name as agent_name, \n               SUM(b.tokens_used) as total_tokens,\n               SUM(b.total_cost_usd) as total_cost\n        FROM billing_usage b \n        JOIN agents a ON b.agent_id = a.id \n        GROUP BY a.name \n        ORDER BY total_tokens DESC \n        LIMIT " : String) = ws9 ++ tuCore from rfl,
        show ("\n        " : String) = ws9 from rfl]
    simp only [String.data_append, List.append_assoc]
  · intro c hc
    rw [show tuCore.data.head? = some 'S' from rfl] at hc
    cases hc
    decide
  · intro kw hkw
    fin_cases hkw <;> decide

/-- The count rule: it either returns `(None, None)` or counts one of the
twelve catalog tables, each of which yields safe SQL. -/
theorem ruleGood_count : RuleGood (pat_count, _handle_count) := by
  intro q caps r _ hh
  have hh' : _handle_count caps q = some r := hh
  rcases caps with - | ⟨g, caps'⟩
  · simp [_handle_count] at hh'
  · rw [show _handle_count (g :: caps') q =
          (match tableNames.find? (fun t => countMatches (pyLower g) t) with
            | none => some (none, none)
            | some table =>
                some (some (pyStrip ("SELECT COUNT(*) as count FROM " ++ table)),
                  some ("Counting total " ++ pyLower g))) from rfl] at hh'
    rcases hf : tableNames.find? (fun t => countMatches (pyLower g) t) with - | t
    · rw [hf] at hh'
      cases hh'
      exact Or.inl rfl
    · rw [hf] at hh'
      cases hh'
      right
      refine ⟨_, _, rfl, ?_⟩
      have ht : t ∈ tableNames := List.mem_of_find?_eq_some hf
      fin_cases ht <;> exact ⟨by decide, by decide, by decide⟩

end DataTalk


set_option maxRecDepth 1000000

namespace DataTalk
set_option maxRecDepth 1000000

theorem gtf_shape {v u tf : String} (h : _get_time_filter v u = some tf) :
    ∃ k sp, (sp = " hours')" ∨ sp = " days')")
      ∧ tf = dtPre ++ natRepr k ++ sp := by
  unfold _get_time_filter at h
  rcases hi : pyInt? v with - | n
  · rw [hi] at h
    cases h
  · rw [hi] at h
    have htf : tf = "datetime('now', '-" ++ natRepr (n * ((multiplier.lookup u).getD 1))
        ++ " " ++ ((unit_map.lookup u).getD "days") ++ "')" := by
      cases h
      rfl
    refine ⟨n * ((multiplier.lookup u).getD 1), ?_⟩
    have hmerge : ∀ (x w : String), ((x ++ " ") ++ w) ++ "')" = x ++ (" " ++ (w ++ "')")) := by
      intro x w
      rw [String.append_assoc, String.append_assoc]
    rcases hlk : unit_map.lookup u with - | w
    · refine ⟨" days')", Or.inr rfl, ?_⟩
      rw [htf, hlk]
      rw [show (Option.getD (none : Option String) "days") = "days" from rfl]
      rw [hmerge]
      rfl
    · have hw : w = "hours" ∨ w = "days" := by
        obtain ⟨l₁, l₂, hsplit, -⟩ := List.lookup_eq_some_iff.mp hlk
        have hmem : (u, w) ∈ unit_map := by
          rw [hsplit]
          exact List.mem_append.mpr (Or.inr (List.mem_cons_self _ _))
        fin_cases hmem <;> simp
      rw [htf, hlk, show (Option.getD (some w) "days") = w from rfl]
      rcases hw with rfl | rfl
      · refine ⟨" hours')", Or.inl rfl, ?_⟩
        rw [hmerge]
        rfl
      · refine ⟨" days')", Or.inr rfl, ?_⟩
        rw [hmerge]
        rfl

end DataTalk

namespace DataTalk

/-- Generic safety of a generated statement of the shape
whitespace ++ core-A ++ digits ++ core-B ++ whitespace (after `.strip()`). -/
theorem sqlOk_digit_middle (A B d : String) {s : String}
    (hdata : s.data = (ws9.data ++ (A.data ++ (d.data ++ B.data))) ++ ws9.data)
    (hdne : d.data ≠ []) (hdig : ∀ c ∈ d.data, isDigitChar c = true)
    (hAne : A.data ≠ [])
    (hheadA : ∀ c, A.data.head? = some c → isSpaceChar c = false)
    (hBne : B.data ≠ [])
    (hlastB : ∀ c, B.data.getLast? = some c → isSpaceChar c = false)
    (hpre : "SELECT".data.isPrefixOf (A.data.map Char.toUpper) = true)
    (hsemiA : (A.data.all (fun c => !(c == ';'))) = true)
    (hsemiAU : ((A.data.map Char.toUpper).all (fun c => !(c == ';'))) = true)
    (hsemiB : (B.data.all (fun c => !(c == ';'))) = true)
    (hsemiBU : ((B.data.map Char.toUpper).all (fun c => !(c == ';'))) = true)
    (hqAB : (A.data.count squoteChar + B.data.count squoteChar) % 2 = 0)
    (hkwsA : ∀ kw ∈ badKeywords, ¬ (kw.data <:+: A.data.map Char.toUpper))
    (hkwsB : ∀ kw ∈ badKeywords, ¬ (kw.data <:+: B.data.map Char.toUpper)) :
    SqlOk (pyStrip s) := by
  have hmid : A.data ++ (d.data ++ B.data) ≠ [] := by
    intro hh
    exact hAne (List.append_eq_nil.mp hh).1
  have hdB : d.data ++ B.data ≠ [] := by
    intro hh
    exact hBne (List.append_eq_nil.mp hh).2
  have hhead : ∀ c, (A.data ++ (d.data ++ B.data)).head? = some c → isSpaceChar c = false := by
    intro c hc
    rw [head?_append_left _ hAne] at hc
    exact hheadA c hc
  have hlast : ∀ c, (A.data ++ (d.data ++ B.data)).getLast? = some c → isSpaceChar c = false := by
    intro c hc
    rw [getLast?_append_right _ hdB, getLast?_append_right _ hBne] at hc
    exact hlastB c hc
  have hws : ∀ c ∈ ws9.data, isSpaceChar c = true := by decide
  have hstrip : stripL s.data = A.data ++ (d.data ++ B.data) := by
    rw [hdata]
    exact stripL_concat hws hws hmid hhead hlast
  have hself : stripL (A.data ++ (d.data ++ B.data)) = A.data ++ (d.data ++ B.data) := by
    have h0 := @stripL_concat [] (A.data ++ (d.data ++ B.data)) []
      (by simp) (by simp) hmid hhead hlast
    simpa using h0
  refine ⟨?_, ?_, ?_⟩
  · rw [sqlSafe_eq, pyStrip_data, hstrip, hself, List.map_append, List.map_append]
    simp only [Bool.and_eq_true]
    refine ⟨?_, ?_, ?_⟩
    · exact isPrefixOf_of_prefix_left _ hpre
    · rw [List.all_append, List.all_append]
      simp only [Bool.and_eq_true]
      exact ⟨hsemiAU, all_not_semicolon_of_digit (map_up_digits hdig), hsemiBU⟩
    · rw [List.all_eq_true]
      intro kw hkwmem
      have hno : hasWholeToken kw.data
          (A.data.map Char.toUpper ++ (d.data.map Char.toUpper ++ B.data.map Char.toUpper))
            = false :=
        no_kw_one_middle rfl
          (by fin_cases hkwmem <;> decide)
          (hkwsA kw hkwmem) (hkwsB kw hkwmem)
          (map_up_digits hdig) (by simpa using hdne)
      rw [hno]
      rfl
  · rw [pyStrip_data, hstrip, List.all_append, List.all_append]
    simp only [Bool.and_eq_true]
    exact ⟨hsemiA, all_not_semicolon_of_digit hdig, hsemiB⟩
  · rw [pyStrip_data, hstrip, List.count_append, List.count_append,
        count_squote_zero_of_digit hdig]
    omega

/-- Generic safety of a generated statement of the shape
whitespace ++ core-A ++ digits ++ core-B ++ digits ++ whitespace. -/
theorem sqlOk_two_digits (A B d1 d2 : String) {s : String}
    (hdata : s.data = (ws9.data ++ (A.data ++ (d1.data ++ (B.data ++ d2.data)))) ++ ws9.data)
    (hd1ne : d1.data ≠ []) (hd1 : ∀ c ∈ d1.data, isDigitChar c = true)
    (hd2ne : d2.data ≠ []) (hd2 : ∀ c ∈ d2.data, isDigitChar c = true)
    (hAne : A.data ≠ [])
    (hheadA : ∀ c, A.data.head? = some c → isSpaceChar c = false)
    (hpre : "SELECT".data.isPrefixOf (A.data.map Char.toUpper) = true)
    (hsemiA : (A.data.all (fun c => !(c == ';'))) = true)
    (hsemiAU : ((A.data.map Char.toUpper).all (fun c => !(c == ';'))) = true)
    (hsemiB : (B.data.all (fun c => !(c == ';'))) = true)
    (hsemiBU : ((B.data.map Char.toUpper).all (fun c => !(c == ';'))) = true)
    (hqAB : (A.data.count squoteChar + B.data.count squoteChar) % 2 = 0)
    (hkwsA : ∀ kw ∈ badKeywords, ¬ (kw.data <:+: A.data.map Char.toUpper))
    (hkwsB : ∀ kw ∈ badKeywords, ¬ (kw.data <:+: B.data.map Char.toUpper)) :
    SqlOk (pyStrip s) := by
  have hmid : A.data ++ (d1.data ++ (B.data ++ d2.data)) ≠ [] := by
    intro hh
    exact hAne (List.append_eq_nil.mp hh).1
  have hBd : B.data ++ d2.data ≠ [] := by
    intro hh
    exact hd2ne (List.append_eq_nil.mp hh).2
  have hdBd : d1.data ++ (B.data ++ d2.data) ≠ [] := by
    intro hh
    exact hBd (List.append_eq_nil.mp hh).2
  have hhead : ∀ c, (A.data ++ (d1.data ++ (B.data ++ d2.data))).head? = some c →
      isSpaceChar c = false := by
    intro c hc
    rw [head?_append_left _ hAne] at hc
    exact hheadA c hc
  have hlast : ∀ c, (A.data ++ (d1.data ++ (B.data ++ d2.data))).getLast? = some c →
      isSpaceChar c = false := by
    intro c hc
    rw [getLast?_append_right _ hdBd, getLast?_append_right _ hBd,
        getLast?_append_right _ hd2ne] at hc
    exact space_false_of_digit (hd2 c (mem_of_getLast? hc))
  have hws : ∀ c ∈ ws9.data, isSpaceChar c = true := by decide
  have hstrip : stripL s.data = A.data ++ (d1.data ++ (B.data ++ d2.data)) := by
    rw [hdata]
    exact stripL_concat hws hws hmid hhead hlast
  have hself : stripL (A.data ++ (d1.data ++ (B.data ++ d2.data)))
      = A.data ++ (d1.data ++ (B.data ++ d2.data)) := by
    have h0 := @stripL_concat [] (A.data ++ (d1.data ++ (B.data ++ d2.data))) []
      (by simp) (by simp) hmid hhead hlast
    simpa using h0
  refine ⟨?_, ?_, ?_⟩
  · rw [sqlSafe_eq, pyStrip_data, hstrip, hself, List.map_append, List.map_append,
        List.map_append]
    simp only [Bool.and_eq_true]
    refine ⟨?_, ?_, ?_⟩
    · exact isPrefixOf_of_prefix_left _ hpre
    · rw [List.all_append, List.all_append, List.all_append]
      simp only [Bool.and_eq_true]
      exact ⟨hsemiAU, all_not_semicolon_of_digit (map_up_digits hd1), hsemiBU,
        all_not_semicolon_of_digit (map_up_digits hd2)⟩
    · rw [List.all_eq_true]
      intro kw hkwmem
      have hkwne : kw.data ≠ [] := by fin_cases hkwmem <;> decide
      have hno : hasWholeToken kw.data
          (A.data.map Char.toUpper ++ (d1.data.map Char.toUpper ++
            (B.data.map Char.toUpper ++ d2.data.map Char.toUpper))) = false :=
        no_kw_two_middles (by simp)
          (by fin_cases hkwmem <;> decide)
          (hkwsA kw hkwmem) (hkwsB kw hkwmem)
          (fun h => hkwne (List.eq_nil_of_infix_nil h))
          (map_up_digits hd1) (by simpa using hd1ne)
          (map_up_digits hd2) (by simpa using hd2ne)
      rw [hno]
      rfl
  · rw [pyStrip_data, hstrip, List.all_append, List.all_append, List.all_append]
    simp only [Bool.and_eq_true]
    exact ⟨hsemiA, all_not_semicolon_of_digit hd1, hsemiB, all_not_semicolon_of_digit hd2⟩
  · rw [pyStrip_data, hstrip, List.count_append, List.count_append, List.count_append,
        count_squote_zero_of_digit hd1, count_squote_zero_of_digit hd2]
    omega

end DataTalk

namespace DataTalk

/-- The errors-timeframe rule generates safe SQL for any captures. -/
theorem ruleGood_errors_timeframe :
    RuleGood (pat_errors_timeframe, _handle_errors_timeframe) := by
  intro q caps r _ hh
  have hh' : _handle_errors_timeframe caps q = some r := hh
  rcases caps with - | ⟨v, caps'⟩
  · simp [_handle_errors_timeframe] at hh'
  rcases caps' with - | ⟨u, caps''⟩
  · simp [_handle_errors_timeframe] at hh'
  rw [show _handle_errors_timeframe (v :: u :: caps'') q =
        (match _get_time_filter v u with
          | none => none
          | some time_filter =>
              some (some (pyStrip ("\n        SELECT * \n        FROM errors \n        WHERE created_at >= " ++ time_filter ++ "\n        ORDER BY created_at DESC\n        ")),
                some ("Showing all errors from the last " ++ v ++ " " ++ u ++ "(s)")))
        from rfl] at hh'
  rcases htf : _get_time_filter v u with - | tf
  · rw [htf] at hh'
    cases hh'
  rw [htf] at hh'
  cases hh'
  right
  refine ⟨_, _, rfl, ?_⟩
  obtain ⟨k, sp, hsp, rfl⟩ := gtf_shape htf
  have hheadA : ∀ c, ((etA0 ++ dtPre) : String).data.head? = some c → isSpaceChar c = false := by
    intro c hc
    rw [String.data_append, head?_append_left _ (by decide),
        show etA0.data.head? = some 'S' from rfl] at hc
    cases hc
    decide
  rcases hsp with rfl | rfl
  · refine sqlOk_digit_middle (etA0 ++ dtPre) (" hours')" ++ etT2) (natRepr k) ?_
      natRepr_ne_nil natRepr_digits (by decide) hheadA (by decide) ?_ (by decide) (by decide)
      (by decide) (by decide) (by decide) (by decide) ?_ ?_
    · rw [show ("\n        SELECT * \n        FROM errors \n        WHERE created_at >= " : String)
            = ws9 ++ etA0 from rfl,
          show ("\n        ORDER BY created_at DESC\n        " : String) = etT2 ++ ws9 from rfl]
      simp only [String.data_append, List.append_assoc]
    · intro c hc
      rw [String.data_append, getLast?_append_right _ (by decide),
          show etT2.data.getLast? = some 'C' from by decide] at hc
      cases hc
      decide
    · intro kw hkw
      fin_cases hkw <;> decide
    · intro kw hkw
      fin_cases hkw <;> decide
  · refine sqlOk_digit_middle (etA0 ++ dtPre) (" days')" ++ etT2) (natRepr k) ?_
      natRepr_ne_nil natRepr_digits (by decide) hheadA (by decide) ?_ (by decide) (by decide)
      (by decide) (by decide) (by decide) (by decide) ?_ ?_
    · rw [show ("\n        SELECT * \n        FROM errors \n        WHERE created_at >= " : String)
            = ws9 ++ etA0 from rfl,
          show ("\n        ORDER BY created_at DESC\n        " : String) = etT2 ++ ws9 from rfl]
      simp only [String.data_append, List.append_assoc]
    · intro c hc
      rw [String.data_append, getLast?_append_right _ (by decide),
          show etT2.data.getLast? = some 'C' from by decide] at hc
      cases hc
      decide
    · intro kw hkw
      fin_cases hkw <;> decide
    · intro kw hkw
      fin_cases hkw <;> decide

end DataTalk

namespace DataTalk

/-- The failed-tests rule generates safe SQL for any captures. -/
theorem ruleGood_failed_tests :
    RuleGood (pat_failed_tests, _handle_failed_tests) := by
  intro q caps r _ hh
  have hh' : _handle_failed_tests caps q = some r := hh
  rcases caps with - | ⟨v, caps'⟩
  · simp [_handle_failed_tests] at hh'
  rcases caps' with - | ⟨u, caps''⟩
  · simp [_handle_failed_tests] at hh'
  rw [show _handle_failed_tests (v :: u :: caps'') q =
        (match _get_time_filter v u with
          | none => none
          | some time_filter =>
              some (some (pyStrip ("\n        SELECT tr.*, a.name as agent_name \n        FROM test_runs tr \n        JOIN agents a ON tr.agent_id = a.id \n        WHERE tr.result = 'fail' \n        AND tr.created_at >= " ++ time_filter ++ "\n        ORDER BY tr.created_at DESC\n        ")),
                some ("Finding failed test runs from the last " ++ v ++ " " ++ u ++ "(s)")))
        from rfl] at hh'
  rcases htf : _get_time_filter v u with - | tf
  · rw [htf] at hh'
    cases hh'
  rw [htf] at hh'
  cases hh'
  right
  refine ⟨_, _, rfl, ?_⟩
  obtain ⟨k, sp, hsp, rfl⟩ := gtf_shape htf
  have hheadA : ∀ c, ((ftA0 ++ dtPre) : String).data.head? = some c → isSpaceChar c = false := by
    intro c hc
    rw [String.data_append, head?_append_left _ (by decide),
        show ftA0.data.head? = some 'S' from rfl] at hc
    cases hc
    decide
  rcases hsp with rfl | rfl
  · refine sqlOk_digit_middle (ftA0 ++ dtPre) (" hours')" ++ ftT2) (natRepr k) ?_
      natRepr_ne_nil natRepr_digits (by decide) hheadA (by decide) ?_ (by decide) (by decide)
      (by decide) (by decide) (by decide) (by decide) ?_ ?_
    · rw [show ("\n        SELECT tr.*, a.name as agent_name \n        FROM test_runs tr \n        JOIN agents a ON tr.agent_id = a.id \n        WHERE tr.result = 'fail' \n        AND tr.created_at >= " : String)
            = ws9 ++ ftA0 from rfl,
          show ("\n        ORDER BY tr.created_at DESC\n        " : String) = ftT2 ++ ws9 from rfl]
      simp only [String.data_append, List.append_assoc]
    · intro c hc
      rw [String.data_append, getLast?_append_right _ (by decide),
          show ftT2.data.getLast? = some 'C' from by decide] at hc
      cases hc
      decide
    · intro kw hkw
      fin_cases hkw <;> decide
    · intro kw hkw
      fin_cases hkw <;> decide
  · refine sqlOk_digit_middle (ftA0 ++ dtPre) (" days')" ++ ftT2) (natRepr k) ?_
      natRepr_ne_nil natRepr_digits (by decide) hheadA (by decide) ?_ (by decide) (by decide)
      (by decide) (by decide) (by decide) (by decide) ?_ ?_
    · rw [show ("\n        SELECT tr.*, a.name as agent_name \n        FROM test_runs tr \n        JOIN agents a ON tr.agent_id = a.id \n        WHERE tr.result = 'fail' \n        AND tr.created_at >= " : String)
            = ws9 ++ ftA0 from rfl,
          show ("\n        ORDER BY tr.created_at DESC\n        " : String) = ftT2 ++ ws9 from rfl]
      simp only [String.data_append, List.append_assoc]
    · intro c hc
      rw [String.data_append, getLast?_append_right _ (by decide),
          show ftT2.data.getLast? = some 'C' from by decide] at hc
      cases hc
      decide
    · intro kw hkw
      fin_cases hkw <;> decide
    · intro kw hkw
      fin_cases hkw <;> decide

/-- The top-errors rule: its limit capture is a digit run and the generated
SQL is safe. -/
theorem ruleGood_top_errors :
    RuleGood (pat_top_errors, _handle_top_errors) := by
  intro q caps r hs hh
  have hs' : searchL pat_top_errors q.data = some caps := hs
  have hh' : _handle_top_errors caps q = some r := hh
  have hspec := searchL_spec (by decide) hs'
  rw [show capSpecs pat_top_errors =
        [CapSpec.ofClass CClass.digit, CapSpec.ofClass CClass.digit,
         CapSpec.oneOf ["hour", "day", "week", "month"]] from rfl] at hspec
  obtain ⟨l, v, u, rfl, hspec1, -, -⟩ := forall₂_triple_inv hspec
  obtain ⟨hlne, hldig⟩ := hspec1
  rw [show _handle_top_errors [l, v, u] q =
        (match _get_time_filter v u with
          | none => none
          | some time_filter =>
              some (some (pyStrip ("\n        SELECT code, message, source, COUNT(*) as error_count \n        FROM errors \n        WHERE created_at >= " ++ time_filter ++ "\n        GROUP BY code, message, source \n        ORDER BY error_count DESC \n        LIMIT " ++ l ++ "\n        ")),
                some ("Finding top " ++ l ++ " errors from the last " ++ v ++ " " ++ u ++ "(s)")))
        from rfl] at hh'
  rcases htf : _get_time_filter v u with - | tf
  · rw [htf] at hh'
    cases hh'
  rw [htf] at hh'
  cases hh'
  right
  refine ⟨_, _, rfl, ?_⟩
  obtain ⟨k, sp, hsp, rfl⟩ := gtf_shape htf
  have hheadA : ∀ c, ((teA0 ++ dtPre) : String).data.head? = some c → isSpaceChar c = false := by
    intro c hc
    rw [String.data_append, head?_append_left _ (by decide),
        show teA0.data.head? = some 'S' from rfl] at hc
    cases hc
    decide
  rcases hsp with rfl | rfl
  · refine sqlOk_two_digits (teA0 ++ dtPre) (" hours')" ++ teT2) (natRepr k) l ?_
      natRepr_ne_nil natRepr_digits hlne hldig (by decide) hheadA (by decide) (by decide)
      (by decide) (by decide) (by decide) (by decide) ?_ ?_
    · rw [show ("\n        SELECT code, message, source, COUNT(*) as error_count \n        FROM errors \n        WHERE created_at >= " : String)
            = ws9 ++ teA0 from rfl,
          show ("\n        GROUP BY code, message, source \n        ORDER BY error_count DESC \n        LIMIT " : String) = teT2 from rfl,
          show ("\n        " : String) = ws9 from rfl]
      simp only [String.data_append, List.append_assoc]
    · intro kw hkw
      fin_cases hkw <;> decide
    · intro kw hkw
      fin_cases hkw <;> decide
  · refine sqlOk_two_digits (teA0 ++ dtPre) (" days')" ++ teT2) (natRepr k) l ?_
      natRepr_ne_nil natRepr_digits hlne hldig (by decide) hheadA (by decide) (by decide)
      (by decide) (by decide) (by decide) (by decide) ?_ ?_
    · rw [show ("\n        SELECT code, message, source, COUNT(*) as error_count \n        FROM errors \n        WHERE created_at >= " : String)
            = ws9 ++ teA0 from rfl,
          show ("\n        GROUP BY code, message, source \n        ORDER BY error_count DESC \n        LIMIT " : String) = teT2 from rfl,
          show ("\n        " : String) = ws9 from rfl]
      simp only [String.data_append, List.append_assoc]
    · intro kw hkw
      fin_cases hkw <;> decide
    · intro kw hkw
      fin_cases hkw <;> decide

end DataTalk

namespace DataTalk

theorem up_word_not_semicolon {c : Char} (h : isWordChar c = true) :
    (c.toUpper == ';') = false := by
  cases hb : c.toUpper == ';' with
  | false => rfl
  | true =>
      have hc : c = ';' := eq_of_toUpper_eq_low (by decide) (eq_of_beq hb)
      rw [hc] at h
      exact absurd h (by decide)

theorem all_not_semicolon_of_word_up {L : List Char} (h : ∀ c ∈ L, isWordChar c = true) :
    ((L.map Char.toUpper).all (fun c => !(c == ';'))) = true :=
  List.all_eq_true.mpr (fun c hc => by
    obtain ⟨d, hd, rfl⟩ := List.mem_map.mp hc
    rw [up_word_not_semicolon (h d hd)]
    rfl)

/-- Generic safety of a generated statement of the shape
whitespace ++ core-A ++ quote ++ short-word-code ++ quote ++ core-B ++ whitespace. -/
theorem sqlOk_quoted_code (A B : String) (C : List Char) {s : String}
    (hdata : s.data =
      (ws9.data ++ (A.data ++ ([squoteChar] ++ (C ++ ([squoteChar] ++ B.data))))) ++ ws9.data)
    (hCword : ∀ c ∈ C, isWordChar c = true)
    (hClen : C.length < 4)
    (hAne : A.data ≠ [])
    (hheadA : ∀ c, A.data.head? = some c → isSpaceChar c = false)
    (hBne : B.data ≠ [])
    (hlastB : ∀ c, B.data.getLast? = some c → isSpaceChar c = false)
    (hpre : "SELECT".data.isPrefixOf (A.data.map Char.toUpper) = true)
    (hsemiA : (A.data.all (fun c => !(c == ';'))) = true)
    (hsemiAU : ((A.data.map Char.toUpper).all (fun c => !(c == ';'))) = true)
    (hsemiB : (B.data.all (fun c => !(c == ';'))) = true)
    (hsemiBU : ((B.data.map Char.toUpper).all (fun c => !(c == ';'))) = true)
    (hqAB : (A.data.count squoteChar + B.data.count squoteChar) % 2 = 0)
    (hkwsA : ∀ kw ∈ badKeywords, ¬ (kw.data <:+: A.data.map Char.toUpper))
    (hkwsB : ∀ kw ∈ badKeywords, ¬ (kw.data <:+: B.data.map Char.toUpper)) :
    SqlOk (pyStrip s) := by
  have hsqB : [squoteChar] ++ B.data ≠ [] := by simp
  have hCsqB : C ++ ([squoteChar] ++ B.data) ≠ [] := by
    intro hh
    exact hsqB (List.append_eq_nil.mp hh).2
  have hM : [squoteChar] ++ (C ++ ([squoteChar] ++ B.data)) ≠ [] := by simp
  have hmid : A.data ++ ([squoteChar] ++ (C ++ ([squoteChar] ++ B.data))) ≠ [] := by
    intro hh
    exact hAne (List.append_eq_nil.mp hh).1
  have hhead : ∀ c, (A.data ++ ([squoteChar] ++ (C ++ ([squoteChar] ++ B.data)))).head?
      = some c → isSpaceChar c = false := by
    intro c hc
    rw [head?_append_left _ hAne] at hc
    exact hheadA c hc
  have hlast : ∀ c, (A.data ++ ([squoteChar] ++ (C ++ ([squoteChar] ++ B.data)))).getLast?
      = some c → isSpaceChar c = false := by
    intro c hc
    rw [getLast?_append_right _ hM, getLast?_append_right _ hCsqB,
        getLast?_append_right _ hsqB, getLast?_append_right _ hBne] at hc
    exact hlastB c hc
  have hws : ∀ c ∈ ws9.data, isSpaceChar c = true := by decide
  have hstrip : stripL s.data
      = A.data ++ ([squoteChar] ++ (C ++ ([squoteChar] ++ B.data))) := by
    rw [hdata]
    exact stripL_concat hws hws hmid hhead hlast
  have hself : stripL (A.data ++ ([squoteChar] ++ (C ++ ([squoteChar] ++ B.data))))
      = A.data ++ ([squoteChar] ++ (C ++ ([squoteChar] ++ B.data))) := by
    have h0 := @stripL_concat [] (A.data ++ ([squoteChar] ++ (C ++ ([squoteChar] ++ B.data)))) []
      (by simp) (by simp) hmid hhead hlast
    simpa using h0
  have hmapsq : List.map Char.toUpper [squoteChar] = [squoteChar] := by decide
  refine ⟨?_, ?_, ?_⟩
  · rw [sqlSafe_eq, pyStrip_data, hstrip, hself]
    simp only [List.map_append, hmapsq]
    simp only [Bool.and_eq_true]
    refine ⟨?_, ?_, ?_⟩
    · exact isPrefixOf_of_prefix_left _ hpre
    · simp only [List.all_append, Bool.and_eq_true]
      exact ⟨hsemiAU, by decide, all_not_semicolon_of_word_up hCword, by decide, hsemiBU⟩
    · rw [List.all_eq_true]
      intro kw hkwmem
      have hklen : 4 ≤ kw.data.length := by fin_cases hkwmem <;> decide
      have hno : hasWholeToken kw.data
          (A.data.map Char.toUpper ++ ([squoteChar] ++ ((C.map Char.toUpper)
            ++ ([squoteChar] ++ B.data.map Char.toUpper)))) = false :=
        no_kw_quoted_middle rfl
          (by fin_cases hkwmem <;> decide)
          (hkwsA kw hkwmem) (hkwsB kw hkwmem)
          (by rw [List.length_map]; omega)
      rw [hno]
      rfl
  · rw [pyStrip_data, hstrip]
    simp only [List.all_append, Bool.and_eq_true]
    exact ⟨hsemiA, by decide, all_not_semicolon_of_word hCword, by decide, hsemiB⟩
  · rw [pyStrip_data, hstrip]
    simp only [List.count_append, count_squote_zero_of_word hCword]
    rw [show List.count squoteChar [squoteChar] = 1 from by decide]
    omega

end DataTalk

namespace DataTalk

theorem toLower_bounds (c : Char) :
    Char.toLower c = c ∨ (97 ≤ (Char.toLower c).toNat ∧ (Char.toLower c).toNat ≤ 122) := by
  unfold Char.toLower
  by_cases hc : c.toNat ≥ 65 ∧ c.toNat ≤ 90
  · right
    rw [if_pos hc]
    obtain ⟨m, hm⟩ : ∃ m, c.toNat + 32 = m := ⟨_, rfl⟩
    have h1 : 97 ≤ m := by omega
    have h2 : m ≤ 122 := by omega
    rw [hm]
    interval_cases m <;> exact ⟨by decide, by decide⟩
  · left
    rw [if_neg hc]

theorem toLower_word {c : Char} (h : isWordChar c = true) : isWordChar c.toLower = true := by
  rcases toLower_bounds c with h' | ⟨h1, h2⟩
  · rw [h']
    exact h
  · have hl : isLetterChar c.toLower = true := by
      unfold isLetterChar
      simp only [Bool.or_eq_true, Bool.and_eq_true, decide_eq_true_eq]
      right
      exact ⟨h1, h2⟩
    simp [isWordChar, hl]

end DataTalk

namespace DataTalk

/-- The agents-by-language rule: its capture is a word run, the interpolated
code is a short word string, and the generated SQL is safe. -/
theorem ruleGood_agents_by_language :
    RuleGood (pat_agents_by_language, _handle_agents_by_language) := by
  intro q caps r hs hh
  have hs' : searchL pat_agents_by_language q.data = some caps := hs
  have hh' : _handle_agents_by_language caps q = some r := hh
  have hspec := searchL_spec (by decide) hs'
  rw [show capSpecs pat_agents_by_language = [CapSpec.ofClass CClass.word] from rfl] at hspec
  obtain ⟨g, rfl, hspec1⟩ := forall₂_singleton_inv hspec
  obtain ⟨-, hgword⟩ := hspec1
  rw [show _handle_agents_by_language [g] q =
        some (some (pyStrip ("\n        SELECT a.*, w.name as workspace_name \n        FROM agents a \n        JOIN workspaces w ON a.workspace_id = w.id \n        WHERE a.language = '"
            ++ ((languages.lookup (pyLower g)).getD ⟨(pyLower g).data.take 2⟩) ++ "'\n        ORDER BY a.created_at DESC\n        ")),
          some ("Finding all agents using " ++ pyLower g ++ " language"))
        from rfl] at hh'
  cases hh'
  right
  refine ⟨_, _, rfl, ?_⟩
  have hcode : (∀ c ∈ ((languages.lookup (pyLower g)).getD ⟨(pyLower g).data.take 2⟩).data,
      isWordChar c = true)
      ∧ ((languages.lookup (pyLower g)).getD ⟨(pyLower g).data.take 2⟩).data.length < 4 := by
    rcases hlk : languages.lookup (pyLower g) with - | code
    · rw [show (Option.getD (none : Option String) ⟨(pyLower g).data.take 2⟩)
            = ⟨(pyLower g).data.take 2⟩ from rfl]
      constructor
      · intro c hc
        have hc' : c ∈ (pyLower g).data := List.mem_of_mem_take hc
        obtain ⟨d, hd, rfl⟩ := List.mem_map.mp hc'
        exact toLower_word (hgword d hd)
      · show ((pyLower g).data.take 2).length < 4
        rw [List.length_take]
        have hmin := Nat.min_le_left 2 (pyLower g).data.length
        omega
    · rw [show (Option.getD (some code) ⟨(pyLower g).data.take 2⟩) = code from rfl]
      obtain ⟨l₁, l₂, hsplit, -⟩ := List.lookup_eq_some_iff.mp hlk
      have hmem : (pyLower g, code) ∈ languages := by
        rw [hsplit]
        exact List.mem_append.mpr (Or.inr (List.mem_cons_self _ _))
      clear hlk hsplit
      generalize pyLower g = k at hmem
      fin_cases hmem <;> exact ⟨by decide, by decide⟩
  refine sqlOk_quoted_code alA0 alT2
      ((languages.lookup (pyLower g)).getD ⟨(pyLower g).data.take 2⟩).data ?_
      hcode.1 hcode.2 (by decide) ?_ (by decide) ?_ (by decide) (by decide) (by decide)
      (by decide) (by decide) (by decide) ?_ ?_
  · rw [show ("\n        SELECT a.*, w.name as workspace_name \n        FROM agents a \n        JOIN workspaces w ON a.workspace_id = w.id \n        WHERE a.language = '" : String)
          = (ws9 ++ alA0) ++ "'" from rfl,
        show ("'\n        ORDER BY a.created_at DESC\n        " : String)
          = ("'" ++ alT2) ++ ws9 from rfl]
    simp only [String.data_append, List.append_assoc,
      show (Char.ofNat 39) = squoteChar from rfl]
  · intro c hc
    rw [show alA0.data.head? = some 'S' from rfl] at hc
    cases hc
    decide
  · intro c hc
    rw [show alT2.data.getLast? = some 'C' from by decide] at hc
    cases hc
    decide
  · intro kw hkw
    fin_cases hkw <;> decide
  · intro kw hkw
    fin_cases hkw <;> decide

end DataTalk

namespace DataTalk

/-- Every rule of the table satisfies the per-rule correctness bundle. -/
theorem patterns_good : ∀ p ∈ patterns, RuleGood p := by
  intro p hp
  fin_cases hp
  exacts [ruleGood_top_errors, ruleGood_errors_timeframe, ruleGood_failed_tests,
    ruleGood_successful_tests, ruleGood_inactive_integrations,
    ruleGood_integrations_by_status, ruleGood_agents_by_language, ruleGood_all_agents,
    ruleGood_all_workspaces, ruleGood_workspaces_by_plan, ruleGood_count,
    ruleGood_errors_by_source, ruleGood_agent_runs_status, ruleGood_billing_by_workspace,
    ruleGood_top_usage]

/-- The keyword fallback returns the could-not-understand reason or a safe
table dump. -/
theorem keyword_fallback_good (q : String) :
    _keyword_based_query q = (none, some couldNotUnderstand)
      ∨ ∃ s e, _keyword_based_query q = (some s, some e) ∧ SqlOk s := by
  unfold _keyword_based_query
  rcases hf : tableNames.find? (fun t => tableMentioned q t) with - | table
  · exact Or.inl rfl
  · right
    refine ⟨_, _, rfl, ?_⟩
    have hmem : table ∈ tableNames := List.mem_of_find?_eq_some hf
    fin_cases hmem <;> exact ⟨by decide, by decide, by decide⟩

/-- Dispatch over any suffix of good rules yields the fallback result, the
count rule's unresolved pair, or a safe statement. -/
theorem tryPatterns_good :
    ∀ (rules : List (List Atom × (List String → String → HandlerResult))) (q : String),
      (∀ p ∈ rules, RuleGood p) →
      tryPatterns rules q = _keyword_based_query q
        ∨ tryPatterns rules q = (none, none)
        ∨ ∃ s e, tryPatterns rules q = (some s, some e) ∧ SqlOk s := by
  intro rules
  induction rules with
  | nil =>
      intro q hgood
      exact Or.inl rfl
  | cons p rest ih =>
      intro q hgood
      obtain ⟨pat, h⟩ := p
      rcases hs : searchL pat q.data with - | caps
      · have heq : tryPatterns ((pat, h) :: rest) q = tryPatterns rest q := by
          rw [show tryPatterns ((pat, h) :: rest) q = (match searchL pat q.data with
                | some caps =>
                    match h caps q with
                    | some r => r
                    | none => tryPatterns rest q
                | none => tryPatterns rest q) from rfl, hs]
        rw [heq]
        exact ih q (fun p hp => hgood p (List.mem_cons_of_mem _ hp))
      · rcases hh : h caps q with - | r
        · have heq : tryPatterns ((pat, h) :: rest) q = tryPatterns rest q := by
            rw [show tryPatterns ((pat, h) :: rest) q = (match searchL pat q.data with
                  | some caps =>
                      match h caps q with
                      | some r => r
                      | none => tryPatterns rest q
                  | none => tryPatterns rest q) from rfl, hs]
            show (match h caps q with
                  | some r => r
                  | none => tryPatterns rest q) = tryPatterns rest q
            rw [hh]
          rw [heq]
          exact ih q (fun p hp => hgood p (List.mem_cons_of_mem _ hp))
        · have heq : tryPatterns ((pat, h) :: rest) q = r := by
            rw [show tryPatterns ((pat, h) :: rest) q = (match searchL pat q.data with
                  | some caps =>
                      match h caps q with
                      | some r => r
                      | none => tryPatterns rest q
                  | none => tryPatterns rest q) from rfl, hs]
            show (match h caps q with
                  | some r => r
                  | none => tryPatterns rest q) = r
            rw [hh]
          rw [heq]
          rcases hgood (pat, h) (List.mem_cons_self _ _) q caps r hs hh with
            h1 | ⟨s, e, h2, h3⟩
          · right
            left
            exact h1
          · right
            right
            exact ⟨s, e, h2, h3⟩

/-- When no recognizer fires, dispatch falls through to the fallback. -/
theorem tryPatterns_all_fail :
    ∀ (rules : List (List Atom × (List String → String → HandlerResult))) (q : String),
      (∀ p ∈ rules, searchL p.1 q.data = none) →
      tryPatterns rules q = _keyword_based_query q := by
  intro rules
  induction rules with
  | nil =>
      intro q _
      rfl
  | cons p rest ih =>
      intro q hnone
      obtain ⟨pat, h⟩ := p
      have heq : tryPatterns ((pat, h) :: rest) q = tryPatterns rest q := by
        rw [show tryPatterns ((pat, h) :: rest) q = (match searchL pat q.data with
              | some caps =>
                  match h caps q with
                  | some r => r
                  | none => tryPatterns rest q
              | none => tryPatterns rest q) from rfl,
            show searchL pat q.data = none from hnone (pat, h) (List.mem_cons_self _ _)]
      rw [heq]
      exact ih q (fun p hp => hnone p (List.mem_cons_of_mem _ hp))

/-- `find?` returns the head of the first qualifying decomposition. -/
theorem find?_first {p : String → Bool} :
    ∀ (pre : List String) (t : String) (post : List String),
      (∀ x ∈ pre, p x = false) → p t = true →
      List.find? p (pre ++ t :: post) = some t := by
  intro pre
  induction pre with
  | nil =>
      intro t post _ ht
      simp [List.find?_cons_of_pos _ ht]
  | cons a l ih =>
      intro t post hpre ht
      rw [List.cons_append,
          List.find?_cons_of_neg _ (by simp [hpre a (List.mem_cons_self _ _)])]
      exact ih t post (fun x hx => hpre x (List.mem_cons_of_mem _ hx)) ht

end DataTalk

namespace DataTalk

/-- C2: every SQL string returned by `parse_question` — from any rule handler
or from the keyword fallback — passes `sqlSafe`: after trimming and
upper-casing it starts with SELECT, contains no semicolon, and contains no
whole-token INSERT, UPDATE, DELETE, DROP or ALTER. -/
theorem c2_generated_sql_safe (q sql : String) (e : Option String)
    (h : parse_question q = (some sql, e)) : sqlSafe sql = true := by
  have hq : tryPatterns patterns (pyStrip (pyLower q)) = (some sql, e) := h
  rcases tryPatterns_good patterns (pyStrip (pyLower q)) patterns_good with
    h1 | h1 | ⟨s, e', h2, h3⟩
  · rw [h1] at hq
    rcases keyword_fallback_good (pyStrip (pyLower q)) with h4 | ⟨s, e', h4, h5⟩
    · rw [h4] at hq
      exact absurd (congrArg Prod.fst hq) (by simp)
    · rw [h4] at hq
      obtain rfl : s = sql := Option.some.inj (congrArg Prod.fst hq)
      exact h5.1
  · rw [h1] at hq
    exact absurd (congrArg Prod.fst hq) (by simp)
  · rw [h2] at hq
    obtain rfl : s = sql := Option.some.inj (congrArg Prod.fst hq)
    exact h3.1

/-- C2 witness: the safety postcondition discharged at "show all workspaces". -/
theorem c2_generated_sql_safe_witness :
    sqlSafe "SELECT * \n        FROM workspaces \n        ORDER BY created_at DESC" = true :=
  c2_generated_sql_safe "show all workspaces"
    "SELECT * \n        FROM workspaces \n        ORDER BY created_at DESC"
    (some "Listing all workspaces") (by decide)

/-- C9: free-text captures never reach the generated SQL as raw injectable
text: every SQL string `parse_question` returns is semicolon-free and has an
even number of single quotes, so no statement separator or unbalanced quote
from the input survives interpolation (interpolated fragments are resolved
table names, lexicon codes, or word-character runs). -/
theorem c9_no_raw_interpolation (q sql : String) (e : Option String)
    (h : parse_question q = (some sql, e)) :
    sql.data.all (fun c => !(c == ';')) = true
      ∧ (sql.data.count squoteChar) % 2 = 0 := by
  have hq : tryPatterns patterns (pyStrip (pyLower q)) = (some sql, e) := h
  rcases tryPatterns_good patterns (pyStrip (pyLower q)) patterns_good with
    h1 | h1 | ⟨s, e', h2, h3⟩
  · rw [h1] at hq
    rcases keyword_fallback_good (pyStrip (pyLower q)) with h4 | ⟨s, e', h4, h5⟩
    · rw [h4] at hq
      exact absurd (congrArg Prod.fst hq) (by simp)
    · rw [h4] at hq
      obtain rfl : s = sql := Option.some.inj (congrArg Prod.fst hq)
      exact ⟨h5.2.1, h5.2.2⟩
  · rw [h1] at hq
    exact absurd (congrArg Prod.fst hq) (by simp)
  · rw [h2] at hq
    obtain rfl : s = sql := Option.some.inj (congrArg Prod.fst hq)
    exact ⟨h3.2.1, h3.2.2⟩

/-- C9 witness: the no-injection postcondition discharged at the
unrecognized language name "klingon" (interpolated as its 2-letter prefix). -/
theorem c9_no_raw_interpolation_witness :
    ("SELECT a.*, w.name as workspace_name \n        FROM agents a \n        JOIN workspaces w ON a.workspace_id = w.id \n        WHERE a.language = 'kl'\n        ORDER BY a.created_at DESC" : String).data.all
        (fun c => !(c == ';')) = true
      ∧ (("SELECT a.*, w.name as workspace_name \n        FROM agents a \n        JOIN workspaces w ON a.workspace_id = w.id \n        WHERE a.language = 'kl'\n        ORDER BY a.created_at DESC" : String).data.count squoteChar) % 2 = 0 :=
  c9_no_raw_interpolation "list all agents using klingon language"
    "SELECT a.*, w.name as workspace_name \n        FROM agents a \n        JOIN workspaces w ON a.workspace_id = w.id \n        WHERE a.language = 'kl'\n        ORDER BY a.created_at DESC"
    (some "Finding all agents using klingon language") (by decide)

end DataTalk

namespace DataTalk

/-- C8: `parse_question` is total and exception-free: every input evaluates
to a pair value; a handler failure is contained by dispatch, which moves on
to the remaining rules; and the edge inputs — empty, whitespace-only, no
alphabetic content, SQL-like text — all produce ordinary values. -/
theorem c8_totality (q : String) :
    (∃ sql expl : Option String, parse_question q = (sql, expl))
      ∧ (∀ pat h rest caps, searchL pat (pyStrip (pyLower q)).data = some caps →
           h caps (pyStrip (pyLower q)) = none →
           tryPatterns ((pat, h) :: rest) (pyStrip (pyLower q))
             = tryPatterns rest (pyStrip (pyLower q)))
      ∧ parse_question "" = (none, some couldNotUnderstand)
      ∧ parse_question "   " = (none, some couldNotUnderstand)
      ∧ parse_question "12345 !!!" = (none, some couldNotUnderstand)
      ∧ parse_question "DROP TABLE agents; SELECT * FROM errors"
          = (some "SELECT * FROM agents LIMIT 100",
             some "Showing data from agents table") := by
  refine ⟨⟨(parse_question q).1, (parse_question q).2, rfl⟩, ?_, by decide, by decide,
    by decide, by decide⟩
  intro pat h rest caps hs hh
  rw [show tryPatterns ((pat, h) :: rest) (pyStrip (pyLower q))
        = (match searchL pat (pyStrip (pyLower q)).data with
          | some caps =>
              match h caps (pyStrip (pyLower q)) with
              | some r => r
              | none => tryPatterns rest (pyStrip (pyLower q))
          | none => tryPatterns rest (pyStrip (pyLower q))) from rfl, hs]
  show (match h caps (pyStrip (pyLower q)) with
        | some r => r
        | none => tryPatterns rest (pyStrip (pyLower q)))
      = tryPatterns rest (pyStrip (pyLower q))
  rw [hh]

/-- C1 (corrected): when translation yields no SQL, the reason is either the
non-empty could-not-understand fallback text or — the flaw in the claim —
the completely unexplained `(none, none)` pair that the count rule returns
when its captured entity resolves to no catalog table and that dispatch
passes through instead of continuing to later rules. -/
theorem c1_failure_reasons (q : String) (r : Option String)
    (h : parse_question q = (none, r)) :
    (r = some couldNotUnderstand ∧ couldNotUnderstand ≠ "") ∨ r = none := by
  have hq : tryPatterns patterns (pyStrip (pyLower q)) = (none, r) := h
  rcases tryPatterns_good patterns (pyStrip (pyLower q)) patterns_good with
    h1 | h1 | ⟨s, e', h2, h3⟩
  · rw [h1] at hq
    rcases keyword_fallback_good (pyStrip (pyLower q)) with h4 | ⟨s, e', h4, -⟩
    · rw [h4] at hq
      left
      exact ⟨(congrArg Prod.snd hq).symm, by decide⟩
    · rw [h4] at hq
      exact absurd (congrArg Prod.fst hq) (by simp)
  · rw [h1] at hq
    right
    exact (congrArg Prod.snd hq).symm
  · rw [h2] at hq
    exact absurd (congrArg Prod.fst hq) (by simp)

/-- C1 witness: the failure-reason dichotomy discharged at "zzzz", which no
rule matches and which mentions no table. -/
theorem c1_failure_reasons_witness :
    (some couldNotUnderstand = some couldNotUnderstand ∧ couldNotUnderstand ≠ "")
      ∨ (some couldNotUnderstand : Option String) = none :=
  c1_failure_reasons "zzzz" (some couldNotUnderstand) (by decide)

/-- C7: when no rule's recognizer matches the normalized question, dispatch
hands the question to the keyword fallback, which scans the catalog in
declaration order for a table name occurring literally (with underscores or
with underscores replaced by spaces); the first hit yields
`SELECT * FROM t LIMIT 100` with an explanation naming `t`, and no hit
yields no SQL together with the non-empty could-not-understand reason. -/
theorem c7_keyword_fallback (q : String)
    (hnone : ∀ p ∈ patterns, searchL p.1 (pyStrip (pyLower q)).data = none) :
    parse_question q = _keyword_based_query (pyStrip (pyLower q))
      ∧ (∀ pre t post, tableNames = pre ++ t :: post →
           tableMentioned (pyStrip (pyLower q)) t = true →
           (∀ t' ∈ pre, tableMentioned (pyStrip (pyLower q)) t' = false) →
           parse_question q = (some ("SELECT * FROM " ++ t ++ " LIMIT 100"),
             some ("Showing data from " ++ t ++ " table")))
      ∧ ((∀ t ∈ tableNames, tableMentioned (pyStrip (pyLower q)) t = false) →
           parse_question q = (none, some couldNotUnderstand)
             ∧ couldNotUnderstand ≠ "") := by
  have hfb : parse_question q = _keyword_based_query (pyStrip (pyLower q)) :=
    tryPatterns_all_fail patterns (pyStrip (pyLower q)) hnone
  refine ⟨hfb, ?_, ?_⟩
  · intro pre t post hsplit hment hpre
    rw [hfb]
    unfold _keyword_based_query
    rw [show tableNames.find? (fun u => tableMentioned (pyStrip (pyLower q)) u)
          = some t from by rw [hsplit]; exact find?_first pre t post hpre hment]
  · intro hall
    refine ⟨?_, by decide⟩
    rw [hfb]
    unfold _keyword_based_query
    rw [List.find?_eq_none.mpr (fun t ht => by simp [hall t ht])]

/-- C7 witness: "tell me about workspaces" matches no rule and mentions the
first catalog table `workspaces`, so the fallback dumps that table. -/
theorem c7_keyword_fallback_witness :
    parse_question "tell me about workspaces"
      = (some ("SELECT * FROM " ++ "workspaces" ++ " LIMIT 100"),
         some ("Showing data from " ++ "workspaces" ++ " table")) :=
  (c7_keyword_fallback "tell me about workspaces" (by decide)).2.1
    [] "workspaces"
    ["users", "agents", "integrations", "agent_tools", "agent_runs",
     "test_runs", "run_logs", "errors", "integration_sync_logs", "billing_usage",
     "audit_events"]
    rfl (by decide) (by decide)

end DataTalk

namespace DataTalk

theorem agentsLang_strip (code : String) :
    pyStrip ("\n        SELECT a.*, w.name as workspace_name \n        FROM agents a \n        JOIN workspaces w ON a.workspace_id = w.id \n        WHERE a.language = '" ++ code ++ "'\n        ORDER BY a.created_at DESC\n        ")
      = agentsLangSql code := by
  have hdata : ("\n        SELECT a.*, w.name as workspace_name \n        FROM agents a \n        JOIN workspaces w ON a.workspace_id = w.id \n        WHERE a.language = '" ++ code ++ "'\n        ORDER BY a.created_at DESC\n        ").data
      = (ws9.data ++ (alA0.data ++ ([squoteChar] ++ (code.data ++ ([squoteChar] ++ alT2.data)))))
          ++ ws9.data := by
    rw [show ("\n        SELECT a.*, w.name as workspace_name \n        FROM agents a \n        JOIN workspaces w ON a.workspace_id = w.id \n        WHERE a.language = '" : String)
          = (ws9 ++ alA0) ++ "'" from rfl,
        show ("'\n        ORDER BY a.created_at DESC\n        " : String)
          = ("'" ++ alT2) ++ ws9 from rfl]
    simp only [String.data_append, List.append_assoc,
      show (Char.ofNat 39) = squoteChar from rfl]
  have hsqB : [squoteChar] ++ alT2.data ≠ [] := by simp
  have hCsqB : code.data ++ ([squoteChar] ++ alT2.data) ≠ [] := by
    intro hh
    exact hsqB (List.append_eq_nil.mp hh).2
  have hM : [squoteChar] ++ (code.data ++ ([squoteChar] ++ alT2.data)) ≠ [] := by simp
  have hmid : alA0.data ++ ([squoteChar] ++ (code.data ++ ([squoteChar] ++ alT2.data))) ≠ [] := by
    intro hh
    exact absurd (List.append_eq_nil.mp hh).1 (by decide)
  have hhead : ∀ c, (alA0.data ++ ([squoteChar] ++ (code.data
      ++ ([squoteChar] ++ alT2.data)))).head? = some c → isSpaceChar c = false := by
    intro c hc
    rw [head?_append_left _ (by decide), show alA0.data.head? = some 'S' from rfl] at hc
    cases hc
    decide
  have hlast : ∀ c, (alA0.data ++ ([squoteChar] ++ (code.data
      ++ ([squoteChar] ++ alT2.data)))).getLast? = some c → isSpaceChar c = false := by
    intro c hc
    rw [getLast?_append_right _ hM, getLast?_append_right _ hCsqB,
        getLast?_append_right _ hsqB, getLast?_append_right _ (by decide),
        show alT2.data.getLast? = some 'C' from by decide] at hc
    cases hc
    decide
  have hws : ∀ c ∈ ws9.data, isSpaceChar c = true := by decide
  have hstrip : stripL ("\n        SELECT a.*, w.name as workspace_name \n        FROM agents a \n        JOIN workspaces w ON a.workspace_id = w.id \n        WHERE a.language = '" ++ code ++ "'\n        ORDER BY a.created_at DESC\n        ").data
      = alA0.data ++ ([squoteChar] ++ (code.data ++ ([squoteChar] ++ alT2.data))) := by
    rw [hdata]
    exact stripL_concat hws hws hmid hhead hlast
  have hrhs : (agentsLangSql code).data
      = alA0.data ++ ([squoteChar] ++ (code.data ++ ([squoteChar] ++ alT2.data))) := by
    rw [show agentsLangSql code
          = ((alA0 ++ "'") ++ code) ++ ("'" ++ alT2) from rfl]
    simp only [String.data_append, List.append_assoc,
      show (Char.ofNat 39) = squoteChar from rfl]
  calc pyStrip ("\n        SELECT a.*, w.name as workspace_name \n        FROM agents a \n        JOIN workspaces w ON a.workspace_id = w.id \n        WHERE a.language = '" ++ code ++ "'\n        ORDER BY a.created_at DESC\n        ")
      = (⟨alA0.data ++ ([squoteChar] ++ (code.data ++ ([squoteChar] ++ alT2.data)))⟩ : String) :=
        congrArg String.mk hstrip
    _ = agentsLangSql code := (congrArg String.mk hrhs).symm

/-- C6: for every question of the shape "agents using/with/in L language"
(the rule recognizer), the language filter value interpolated into the
generated SQL is the lexicon code of the captured name when its lower-casing
is one of the ten lexicon entries, and otherwise the first two characters of
the lower-cased captured name; all ten lexicon entries are also checked
end-to-end, Gujarati filtering on 'gu' and the unrecognized Klingon on
'kl'. -/
theorem c6_language_resolution :
    (∀ q caps, searchL pat_agents_by_language q.data = some caps →
        ∃ g, caps = [g]
          ∧ ((∃ code, languages.lookup (pyLower g) = some code
                ∧ _handle_agents_by_language caps q
                  = some (some (agentsLangSql code),
                      some ("Finding all agents using " ++ pyLower g ++ " language")))
            ∨ (languages.lookup (pyLower g) = none
                ∧ _handle_agents_by_language caps q
                  = some (some (agentsLangSql ⟨(pyLower g).data.take 2⟩),
                      some ("Finding all agents using " ++ pyLower g ++ " language")))))
    ∧ (languages.all (fun p =>
        parse_question ("list all agents using " ++ p.1 ++ " language")
          == (some (agentsLangSql p.2),
              some ("Finding all agents using " ++ p.1 ++ " language")))) = true
    ∧ parse_question "list all agents using Gujarati language" =
        (some (agentsLangSql "gu"), some "Finding all agents using gujarati language")
    ∧ parse_question "list all agents using Klingon language" =
        (some (agentsLangSql "kl"), some "Finding all agents using klingon language") := by
  refine ⟨?_, by decide, by decide, by decide⟩
  intro q caps hs
  have hspec := searchL_spec (by decide) hs
  rw [show capSpecs pat_agents_by_language = [CapSpec.ofClass CClass.word] from rfl] at hspec
  obtain ⟨g, rfl, -⟩ := forall₂_singleton_inv hspec
  refine ⟨g, rfl, ?_⟩
  rcases hlk : languages.lookup (pyLower g) with - | code
  · right
    refine ⟨rfl, ?_⟩
    rw [show _handle_agents_by_language [g] q =
          some (some (pyStrip ("\n        SELECT a.*, w.name as workspace_name \n        FROM agents a \n        JOIN workspaces w ON a.workspace_id = w.id \n        WHERE a.language = '"
              ++ ((languages.lookup (pyLower g)).getD ⟨(pyLower g).data.take 2⟩)
              ++ "'\n        ORDER BY a.created_at DESC\n        ")),
            some ("Finding all agents using " ++ pyLower g ++ " language")) from rfl,
        hlk,
        show (Option.getD (none : Option String) ⟨(pyLower g).data.take 2⟩)
          = (⟨(pyLower g).data.take 2⟩ : String) from rfl,
        agentsLang_strip]
  · left
    refine ⟨code, rfl, ?_⟩
    rw [show _handle_agents_by_language [g] q =
          some (some (pyStrip ("\n        SELECT a.*, w.name as workspace_name \n        FROM agents a \n        JOIN workspaces w ON a.workspace_id = w.id \n        WHERE a.language = '"
              ++ ((languages.lookup (pyLower g)).getD ⟨(pyLower g).data.take 2⟩)
              ++ "'\n        ORDER BY a.created_at DESC\n        ")),
            some ("Finding all agents using " ++ pyLower g ++ " language")) from rfl,
        hlk,
        show (Option.getD (some code) ⟨(pyLower g).data.take 2⟩) = code from rfl,
        agentsLang_strip]

end DataTalk
